import Mathlib

/-!
Verification of the `bernet` configuration/schema engine (`bernet/config.py`).

This file gives a shallow embedding of the construction/validation core:
the `InitContext` error context, the field descriptors (`REQUIRED`,
`OPTIONAL`, `EITHER`, `REPEAT`, `SUBCLASS_OF`), the
`_TypeConstructableWrapper` dispatch, `ConfigObject` construction
(`__init__`/`_set_property`), serialization (`to_builtin`/`_to_builtin`),
equality (`__eq__`), validity checking (`valid`) and `from_json`.

Modelling conventions:
* Python values are the inductive `Val`.  `Val.vnone` is Python `None`,
  `Val.obj` is a constructed `ConfigObject` instance carrying its class
  name, its class-level `__config_properties__` and its instance
  attribute dict.  `Val.arr` models a one-dimensional integer
  `numpy.ndarray` (floating point is out of scope).  Booleans and floats
  are not needed by any property checked here and are omitted.
* A declared field type (the argument of `_TypeConstructableWrapper`) is
  `Ty`: a plain primitive type, a `ConfigObject` subclass (inlined as its
  name plus declared properties; the source cannot declare a class whose
  field refers to the class itself, so inlining is faithful), or a nested
  field descriptor.
* Exceptions are the `PyExc` sum; a raised exception carries the mutated
  context, mirroring in-place mutation of the Python context object.
  Computations return `Except (PyExc × InitContext) (α × InitContext)`.
  Python methods that fall off the end return `Val.vnone`.
* `repr`/`str` of class objects and instances is rendered without memory
  addresses and module prefixes; these strings only occur inside error
  messages.  The class environment declares no inheritance, so
  `issubclass`/`isinstance` coincide with exact runtime-type equality
  here (no claim exercises subclass hierarchies).
-/

/-- Plain (non-`ConfigObject`) Python types that can appear as a declared
field type. -/
inductive PrimTy where
  | pInt
  | pStr
  | pList
  | pDict
  | pArr
deriving DecidableEq

mutual
/-- The universe of Python runtime values handled by the config engine. -/
inductive Val where
  | vnone
  | int (n : Int)
  | str (s : String)
  | list (xs : List Val)
  | dict (pairs : List (String × Val))
  | arr (xs : List Int)
  | obj (cls : String) (props : List (String × FieldDef)) (vals : List (String × Val))

/-- A declared field type: what `_TypeConstructableWrapper` can wrap. -/
inductive Ty where
  | prim (p : PrimTy)
  | cls (name : String) (props : List (String × FieldDef))
  | fld (f : FieldDef)

/-- The field-descriptor variants (subclasses of `ConfigField`). -/
inductive FieldDef where
  | REQUIRED (t : Ty)
  | OPTIONAL (t : Ty) (dflt : Val)
  | EITHER (types : List Ty) (fixValues : List Val)
  | REPEAT (t : Ty)
  | SUBCLASS_OF (t : Ty)
end

/-- `InitContext` (config.py lines 30-81): the frame stack `_stack`, the
accumulated `_errors` and the `raise_exceptions` mode flag.
`_push`/`_pop` append to and pop from the end of the Python list. -/
structure InitContext where
  stack : List (String × String) := []
  errors : List String := []
  raiseExceptions : Bool := false

/-- The exceptions the engine can raise: `ConfigException` (from
`InitContext.error` in raise mode) and `ValueError` (the hard
unknown-field error in `ConfigObject.__init__`, and the conversion
failure in `ConfigField.to_builtin`; the source builds the latter message
with a mismatched `format` call which itself fails, a detail collapsed
into the carried message here). -/
inductive PyExc where
  | configException (msg : String)
  | valueError (msg : String)

/-- Result of running a piece of the engine: either a value or a raised
exception, in both cases together with the mutated context. -/
abbrev PyRes (α : Type) := Except (PyExc × InitContext) (α × InitContext)

/-- `str.ljust`: pad on the right with spaces to the given width. -/
def ljust (s : String) (w : Nat) : String :=
  s ++ String.mk (List.replicate (w - s.length) ' ')

/-- `type(value).__name__` for our value universe. -/
def valTypeName : Val → String
  | .vnone => "NoneType"
  | .int _ => "int"
  | .str _ => "str"
  | .list _ => "list"
  | .dict _ => "dict"
  | .arr _ => "ndarray"
  | .obj cls _ _ => cls

mutual
/-- Python `str()` of a value (module prefixes / addresses elided for
instances and arrays; these renderings occur only inside error
messages). -/
def pyStr : Val → String
  | .vnone => "None"
  | .int n => toString n
  | .str s => s
  | .list xs => "[" ++ String.intercalate ", " (pyReprList xs) ++ "]"
  | .dict pairs => "\x7b" ++ String.intercalate ", " (pyReprPairs pairs) ++ "\x7d"
  | .arr xs => "[" ++ String.intercalate " " (xs.map toString) ++ "]"
  | .obj cls _ _ => "<" ++ cls ++ " object>"
termination_by v => (sizeOf v, 1)

/-- Python `repr()` of a value (strings get quoted). -/
def pyRepr : Val → String
  | .str s => "\x27" ++ s ++ "\x27"
  | v => pyStr v
termination_by v => (sizeOf v, 2)

def pyReprList : List Val → List String
  | [] => []
  | v :: rest => pyRepr v :: pyReprList rest
termination_by xs => (sizeOf xs, 0)

def pyReprPairs : List (String × Val) → List String
  | [] => []
  | (k, v) :: rest => ("\x27" ++ k ++ "\x27: " ++ pyRepr v) :: pyReprPairs rest
termination_by ps => (sizeOf ps, 0)
end

/-- `self.obj.__name__` for a wrapped declared type (only reachable for
plain types and `ConfigObject` subclasses). -/
def tyDunderName : Ty → String
  | .prim .pInt => "int"
  | .prim .pStr => "str"
  | .prim .pList => "list"
  | .prim .pDict => "dict"
  | .prim .pArr => "ndarray"
  | .cls name _ => name
  | .fld _ => "<field>"

/-- `_TypeConstructableWrapper.__str__`, i.e. `str(self.obj)`
(config.py lines 143-144); `str` of a class renders as
`<class 'name'>`. -/
def typeWrapperStr : Ty → String
  | .fld _ => "<field>"
  | t => "<class \x27" ++ tyDunderName t ++ "\x27>"

/-- Both-ways `isinstance(a, type(b))` over our value universe (the
environment declares no inheritance, so this is runtime-class
equality). -/
def sameRuntimeClass : Val → Val → Bool
  | .vnone, .vnone => true
  | .int _, .int _ => true
  | .str _, .str _ => true
  | .list _, .list _ => true
  | .dict _, .dict _ => true
  | .arr _, .arr _ => true
  | .obj c1 _ _, .obj c2 _ _ => c1 == c2
  | _, _ => false

/-- `np.all(xs == ys)` for two equally-shaped integer arrays. -/
def npAllEqual (xs ys : List Int) : Bool :=
  xs.length == ys.length && (List.zip xs ys).all fun p => p.1 == p.2

/-- Lookup in an association list (Python attribute/dict access). -/
def lookupVal : List (String × Val) → String → Option Val
  | [], _ => none
  | (k, v) :: rest, key => if k == key then some v else lookupVal rest key

mutual
/-- Python `==` on our value universe.  For `Val.obj` this is
`ConfigObject.__eq__` (config.py lines 365-383), including the
source's comparison `np.all(self_prop == self_prop)` of an
ndarray-valued property with itself. -/
def pyEq : Val → Val → Bool
  | .vnone, .vnone => true
  | .int a, .int b => a == b
  | .str a, .str b => a == b
  | .list xs, .list ys => pyEqList xs ys
  | .dict m1, .dict m2 => m1.length == m2.length && pyEqPairs m1 m2
  | .arr xs, .arr ys => npAllEqual xs ys
  | .obj c1 _ f1, .obj c2 _ f2 => if c1 != c2 then false else cfgPropsEq f1 f2
  | _, _ => false
termination_by a _ => (sizeOf a, 1)

def pyEqList : List Val → List Val → Bool
  | [], [] => true
  | x :: xs, y :: ys => pyEq x y && pyEqList xs ys
  | _, _ => false
termination_by xs _ => (sizeOf xs, 0)

def pyEqPairs : List (String × Val) → List (String × Val) → Bool
  | [], _ => true
  | (k, v) :: rest, m2 =>
    (match lookupVal m2 k with
     | some v2 => pyEq v v2
     | none => false) && pyEqPairs rest m2
termination_by m1 _ => (sizeOf m1, 0)

/-- The property loop of `ConfigObject.__eq__` (config.py lines
369-383): walk `self`'s properties, require both-ways `isinstance`,
special-case ndarrays (with the source's self-vs-self comparison),
otherwise compare with `!=`. -/
def cfgPropsEq : List (String × Val) → List (String × Val) → Bool
  | [], _ => true
  | (name, selfProp) :: rest, other =>
    match lookupVal other name with
    | none => false
    | some otherProp =>
      if !(sameRuntimeClass selfProp otherProp && sameRuntimeClass otherProp selfProp) then
        false
      else
        match selfProp with
        | .arr xs => if !(npAllEqual xs xs) then false else cfgPropsEq rest other
        | sp => if !(pyEq sp otherProp) then false else cfgPropsEq rest other
termination_by f1 _ => (sizeOf f1, 0)
end

/-- Push a frame, as the entry of `InitContext.step_into`
(config.py lines 41-53). -/
def stepPush (ctx : InitContext) (kind name : String) : InitContext :=
  { ctx with stack := ctx.stack ++ [(kind, name)] }

/-- Pop a frame, as the `finally` of `InitContext.step_into`: runs on
every exit path of the scope. -/
def stepPop (ctx : InitContext) : InitContext :=
  { ctx with stack := ctx.stack.dropLast }

/-- The full trace string built by `InitContext.error` (config.py lines
55-63): the message followed by the rendered stack, innermost frame
first. -/
def InitContext.errorStr (ctx : InitContext) (msg : String) : String :=
  let idents := (ctx.stack.map fun p => ljust (p.1 ++ ": ") 10 ++ p.2).reverse
  let parseStack :=
    if idents.length > 0 then "\nTraceback:\n    " ++ String.intercalate ",\n    " idents
    else ""
  msg ++ parseStack

/-- `InitContext.error` (config.py lines 55-66): append the rendered
error; in raise mode additionally raise a `ConfigException` carrying the
same string.  Callers invoke it in tail position, so its normal return
is the enclosing `_construct`'s implicit `None`. -/
def InitContext.error (ctx : InitContext) (msg : String) : PyRes Val :=
  let errorStr := ctx.errorStr msg
  let ctx' := { ctx with errors := ctx.errors ++ [errorStr] }
  if ctx.raiseExceptions then .error (.configException errorStr, ctx')
  else .ok (.vnone, ctx')

/-- `InitContext.n_errors`. -/
def InitContext.nErrors (ctx : InitContext) : Nat := ctx.errors.length

/-- `InitContext.errors_str`. -/
def InitContext.errorsStr (ctx : InitContext) : String :=
  String.intercalate "\n" ctx.errors

/-- `ConfigField.default` as dispatched over the variants: only
`OPTIONAL` and `REPEAT` override the base `None`. -/
def fieldDefault : FieldDef → Val
  | .OPTIONAL _ dflt => dflt
  | .REPEAT _ => .list []
  | _ => .vnone

/-- `ConfigField.traceback_type` (no variant overrides it). -/
def fieldTracebackType (_ : FieldDef) : String := "Field"

/-- `type(value) == self.obj`: the identity fast path of the type
wrapper.  A wrapped descriptor instance never equals a runtime type. -/
def typeMatchesExactly : Ty → Val → Bool
  | .prim .pInt, .int _ => true
  | .prim .pStr, .str _ => true
  | .prim .pList, .list _ => true
  | .prim .pDict, .dict _ => true
  | .prim .pArr, .arr _ => true
  | .cls name _, .obj cls _ _ => name == cls
  | _, _ => false

/-- `issubclass(type(value), tpe)` for `SUBCLASS_OF` (no inheritance is
declared in the modelled environment, so this is an exact-type check). -/
def isSubclassOfType : Ty → Val → Bool := typeMatchesExactly

/-- The type-mismatch message of `_TypeConstructableWrapper.construct`
(config.py lines 139-141). -/
def typeWrapperMismatchMsg (t : Ty) (value : Val) : String :=
  "Expected type `" ++ tyDunderName t ++ "`, but got value `" ++ pyStr value ++
    "` with type `" ++ valTypeName value ++ "`."

/-- The failure message of `SUBCLASS_OF._construct` (config.py lines
272-274; the source ends with a doubled backtick). -/
def subclassMismatchMsg (t : Ty) (value : Val) : String :=
  "Got value `" ++ pyStr value ++ "` of type `" ++ valTypeName value ++
    "`. Expected a subclass of `" ++ tyDunderName t ++ "``"

/-- `str(valid_keys)` for the unknown-field `ValueError` message. -/
def strListStr (keys : List String) : String :=
  "[" ++ String.intercalate ", " (keys.map fun k => "\x27" ++ k ++ "\x27") ++ "]"

/-- The unknown-field message of `ConfigObject.__init__` (config.py
lines 310-311): `"{!r} is not in the allowed keys `{!s}`"`. -/
def notAllowedKeyMsg (k : String) (validKeys : List String) : String :=
  "\x27" ++ k ++ "\x27 is not in the allowed keys `" ++ strListStr validKeys ++ "`"

/-- `valid_keys` of `ConfigObject.__init__` (config.py line 306): the
declared field names plus `"__ctx__"`. -/
def validKeysOf (props : List (String × FieldDef)) : List String :=
  props.map Prod.fst ++ ["__ctx__"]

mutual
/-- `_TypeConstructableWrapper.construct` (config.py lines 130-141):
identity fast path, recursion into a `ConfigObject` subclass for a dict
value (`new_with_ctx` forwards the context), delegation to a wrapped
descriptor's `construct`, otherwise a recorded type-mismatch error. -/
def typeWrapperConstruct (t : Ty) (value : Val) (ctx : InitContext) : PyRes Val :=
  if typeMatchesExactly t value then .ok (value, ctx)
  else
    match t with
    | .cls name props =>
      match value with
      | .dict pairs => configObjectInit name props pairs ctx
      | v => ctx.error (typeWrapperMismatchMsg (.cls name props) v)
    | .fld f => fieldConstruct f value ctx
    | .prim p => ctx.error (typeWrapperMismatchMsg (.prim p) value)
termination_by (sizeOf t, 0, 0)

/-- `_construct` dispatched over the descriptor variants:
`REQUIRED._construct` (line 156), `OPTIONAL._construct` (line 172),
`EITHER._construct` (line 191), `REPEAT._construct` (line 234),
`SUBCLASS_OF._construct` (line 268). -/
def fieldConstruct (f : FieldDef) (value : Val) (ctx : InitContext) : PyRes Val :=
  match f with
  | .REQUIRED t => typeWrapperConstruct t value ctx
  | .OPTIONAL t dflt =>
    match value with
    | .vnone => .ok (dflt, ctx)
    | v => typeWrapperConstruct t v ctx
  | .EITHER types fixValues => eitherConstruct types fixValues value ctx
  | .REPEAT t => repeatConstruct t value ctx
  | .SUBCLASS_OF t =>
    if isSubclassOfType t value then .ok (value, ctx)
    else ctx.error (subclassMismatchMsg t value)
termination_by (sizeOf f, 0, 0)

/-- The alternative-collection loop of `EITHER._construct` (config.py
lines 192-197): construct against every type alternative, catching a
`ConfigException` as a `None` slot (other exceptions propagate). -/
def eitherCollect (types : List Ty) (value : Val) (ctx : InitContext) :
    PyRes (List Val) :=
  match types with
  | [] => .ok ([], ctx)
  | t :: rest =>
    match typeWrapperConstruct t value ctx with
    | .ok (c, ctx') =>
      match eitherCollect rest value ctx' with
      | .ok (cs, ctx'') => .ok (c :: cs, ctx'')
      | .error e => .error e
    | .error (.configException _, ctx') =>
      match eitherCollect rest value ctx' with
      | .ok (cs, ctx'') => .ok (Val.vnone :: cs, ctx'')
      | .error e => .error e
    | .error e => .error e
termination_by (sizeOf types, 1, 0)

/-- The `truths` list of `EITHER._construct` (config.py lines 199-200):
`c is not None` for each collected slot, then `value == fix` for each
literal alternative. -/
def eitherTruths (constructedValues fixValues : List Val) (value : Val) : List Bool :=
  constructedValues.map (fun c => match c with | .vnone => false | _ => true) ++
    fixValues.map (fun fx => pyEq value fx)

/-- `all = self.types + self.fix_values` rendered with `str` (config.py
line 204). -/
def eitherAllStrs (types : List Ty) (fixValues : List Val) : List String :=
  types.map typeWrapperStr ++ fixValues.map pyStr

/-- `true_values`: the alternatives whose truth bit is set (config.py
lines 205-208). -/
def eitherTrueStrs (types : List Ty) (constructedValues fixValues : List Val)
    (value : Val) : List String :=
  (((eitherAllStrs types fixValues).zip
      (eitherTruths constructedValues fixValues value)).filter
    (fun p => p.2)).map Prod.fst

/-- The ambiguity message of `EITHER._construct` (config.py lines
213-214, trailing space included). -/
def eitherMultiMsg (value : Val) (trueStrs : List String) : String :=
  "Value `" ++ pyStr value ++ "` satisfies " ++
    String.intercalate ", " trueStrs.dropLast ++ " and " ++
    trueStrs.getLastD "" ++ " "

/-- The zero-match message of `EITHER._construct` (config.py lines
218-219). -/
def eitherZeroMsg (value : Val) (allStrs : List String) : String :=
  "Value `" ++ pyStr value ++ "` doesn\x27t satisfy any of `" ++
    String.intercalate "`, `" allStrs.dropLast ++ "` or `" ++
    allStrs.getLastD "" ++ "`"

/-- `EITHER._construct` (config.py lines 191-224): one truth bit per
alternative (non-`None` construction, or `==` with a literal); on a
truth count other than one, record an error naming the matching or all
alternatives; otherwise return `constructed_values[0]` when any type
alternatives exist, else the value itself.  The source's local variables
`truths`, `all` and `true_values` are the standalone definitions
`eitherTruths`, `eitherAllStrs` and `eitherTrueStrs` below. -/
def eitherConstruct (types : List Ty) (fixValues : List Val) (value : Val)
    (ctx : InitContext) : PyRes Val :=
  match eitherCollect types value ctx with
  | .error e => .error e
  | .ok (constructedValues, ctx1) =>
    if (eitherTruths constructedValues fixValues value).count true ≠ 1 then
      match eitherTrueStrs types constructedValues fixValues value with
      | s :: ss =>
        ctx1.error (eitherMultiMsg value (s :: ss))
      | [] =>
        ctx1.error (eitherZeroMsg value (eitherAllStrs types fixValues))
    else
      match constructedValues with
      | c0 :: _ => .ok (c0, ctx1)
      | [] => .ok (value, ctx1)
termination_by (sizeOf types, 2, 0)

/-- `REPEAT._construct` (config.py lines 234-254): `None` returns
(`None`), a string records an error, a non-iterable records an error,
otherwise every element is constructed in order under a positional
`step_into("List", "at element i")` frame.  Iterating a dict yields its
keys; iterating an ndarray yields its entries (modelled as plain
ints). -/
def repeatConstruct (t : Ty) (listlike : Val) (ctx : InitContext) : PyRes Val :=
  match listlike with
  | .vnone => .ok (.vnone, ctx)
  | .str _ => ctx.error "Expected a list, but got a str."
  | .list xs =>
    match repeatElems t xs 0 ctx with
    | .ok (cs, ctx') => .ok (.list cs, ctx')
    | .error e => .error e
  | .dict pairs =>
    match repeatElems t (pairs.map fun p => Val.str p.1) 0 ctx with
    | .ok (cs, ctx') => .ok (.list cs, ctx')
    | .error e => .error e
  | .arr xs =>
    match repeatElems t (xs.map Val.int) 0 ctx with
    | .ok (cs, ctx') => .ok (.list cs, ctx')
    | .error e => .error e
  | v => ctx.error ("Expected a listlike type, but got type " ++ valTypeName v ++ ".")
termination_by (sizeOf t, 3, 0)

/-- The element loop of `REPEAT._construct` (config.py lines 249-252):
each element constructed inside a scoped positional frame, results
collected in order (a failed element in accumulate mode leaves a `None`
slot). -/
def repeatElems (t : Ty) (elems : List Val) (i : Nat) (ctx : InitContext) :
    PyRes (List Val) :=
  match elems with
  | [] => .ok ([], ctx)
  | el :: rest =>
    match typeWrapperConstruct t el (stepPush ctx "List" ("at element " ++ toString i)) with
    | .error (e, c) => .error (e, stepPop c)
    | .ok (c, ctx2) =>
      match repeatElems t rest (i + 1) (stepPop ctx2) with
      | .ok (cs, ctx3) => .ok (c :: cs, ctx3)
      | .error e2 => .error e2
termination_by (sizeOf t, 2, sizeOf elems)

/-- `ConfigObject.__init__` (config.py lines 296-311) for a class with
the given declared properties: construct every declared field inside
scoped trace frames, then reject the first supplied key that is not a
declared field name (or `"__ctx__"`) with a hard `ValueError`. -/
def configObjectInit (clsName : String) (props : List (String × FieldDef))
    (kwargs : List (String × Val)) (ctx : InitContext) : PyRes Val :=
  match initFields props kwargs (stepPush ctx "Object" clsName) with
  | .error (e, c) => .error (e, stepPop c)
  | .ok (fieldVals, c) =>
    match kwargs.find? (fun kv => !((validKeysOf props).contains kv.1)) with
    | some kv => .error (.valueError (notAllowedKeyMsg kv.1 (validKeysOf props)), stepPop c)
    | none => .ok (.obj clsName props fieldVals, stepPop c)
termination_by (sizeOf props, 4, 0)

/-- The per-field loop of `ConfigObject.__init__` (config.py lines
299-304): fetch the supplied value (`None` when absent), open a
`step_into(field.traceback_type(), name)` frame and run
`_set_property`. -/
def initFields (props : List (String × FieldDef)) (kwargs : List (String × Val))
    (ctx : InitContext) : PyRes (List (String × Val)) :=
  match props with
  | [] => .ok ([], ctx)
  | (name, fieldDef) :: rest =>
    match setPropertyWithCtx fieldDef ((lookupVal kwargs name).getD Val.vnone)
        (stepPush ctx (fieldTracebackType fieldDef) name) with
    | .error (e, c) => .error (e, stepPop c)
    | .ok (resolved, c) =>
      match initFields rest kwargs (stepPop c) with
      | .ok (vals, ctx2) => .ok ((name, resolved) :: vals, ctx2)
      | .error e2 => .error e2
termination_by (sizeOf props, 3, 0)

/-- `ConfigObject._set_property` with a supplied context (config.py
lines 322-331): run the descriptor's `construct` and substitute the
descriptor's `default()` when the constructed value is `None`. -/
def setPropertyWithCtx (fieldDef : FieldDef) (value : Val) (ctx : InitContext) :
    PyRes Val :=
  match fieldConstruct fieldDef value ctx with
  | .ok (.vnone, c) => .ok (fieldDefault fieldDef, c)
  | .ok (v, c) => .ok (v, c)
  | .error e => .error e
termination_by (sizeOf fieldDef, 1, 0)
end

/-- `ConfigField.construct` (config.py lines 85-88): a fresh
accumulate-mode context is created when none is supplied. -/
def fieldConstructEntry (f : FieldDef) (value : Val) (ctx : Option InitContext) :
    PyRes Val :=
  fieldConstruct f value (ctx.getD {})

/-- `ConfigField.valid` (config.py lines 90-95): construct under a fresh
raise-mode context; `True` on success, `False` on a caught
`ConfigException`; any other exception propagates. -/
def fieldValid (f : FieldDef) (value : Val) : Except PyExc Bool :=
  match fieldConstruct f value { raiseExceptions := true } with
  | .ok _ => .ok true
  | .error (.configException _, _) => .ok false
  | .error (e, _) => .error e

/-- A value found by `lookupVal` is structurally smaller than the
association list containing it. -/
theorem lookupVal_sizeOf_lt {m : List (String × Val)} {k : String} {v : Val}
    (h : lookupVal m k = some v) : sizeOf v < sizeOf m := by
  induction m with
  | nil => simp [lookupVal] at h
  | cons hd tl ih =>
    obtain ⟨k', v'⟩ := hd
    by_cases hk : k' == k
    · simp [lookupVal, hk] at h
      subst h
      simp
      omega
    · simp [lookupVal, hk] at h
      have := ih h
      simp
      omega

/-- Size bound for a lookup result, covering the absent case. -/
theorem lookupVal_sizeOf_opt (m : List (String × Val)) (k : String) :
    sizeOf (lookupVal m k) - 1 < sizeOf m := by
  cases h : lookupVal m k with
  | none =>
    have : 0 < sizeOf m := by cases m <;> simp
    simpa using this
  | some v =>
    have := lookupVal_sizeOf_lt h
    simp
    omega

mutual
/-- `ConfigField.to_builtin` (config.py lines 103-112): values exposing
`_to_builtin` recurse; `int`, `float`, `str` and `dict` pass through;
anything else raises (the source's `"Cannot convert object {:} to "
.format()` itself fails, which is collapsed into the carried message). -/
def baseToBuiltin : Val → Except PyExc Val
  | .obj cls props vals => objToBuiltin cls props vals
  | .int n => .ok (.int n)
  | .str s => .ok (.str s)
  | .dict m => .ok (.dict m)
  | _ => .error (.valueError "Cannot convert object \x7b:\x7d to ")
termination_by v => (sizeOf v, 0, 0)

/-- `ConfigObject._to_builtin` (config.py lines 337-343): a dict of
every declared property's `to_builtin`, keyed by property name. -/
def objToBuiltin (cls : String) (props : List (String × FieldDef))
    (vals : List (String × Val)) : Except PyExc Val :=
  match propsToBuiltin props vals with
  | .ok pairs => .ok (.dict pairs)
  | .error e => .error e
termination_by (sizeOf vals, 2 + sizeOf props, 0)

/-- `getattr(self, '_' + prop_name)` followed by the field definition's
`to_builtin` (`getattr` on a properly constructed instance cannot miss;
a missing attribute is modelled as the `AttributeError` it would
raise). -/
def propValToBuiltin (fieldDef : FieldDef) (name : String) :
    Option Val → Except PyExc Val
  | none => .error (.valueError ("AttributeError: _" ++ name))
  | some v => fieldToBuiltin fieldDef v
termination_by ov => (sizeOf ov - 1, 5, 0)

/-- The generator loop of `ConfigObject._to_builtin`: walk the declared
properties, fetch each instance value and convert it with the field
definition's `to_builtin`. -/
def propsToBuiltin (props : List (String × FieldDef)) (vals : List (String × Val)) :
    Except PyExc (List (String × Val)) :=
  match props with
  | [] => .ok []
  | (name, fieldDef) :: rest =>
    match propValToBuiltin fieldDef name (lookupVal vals name) with
    | .error e => .error e
    | .ok b =>
      match propsToBuiltin rest vals with
      | .ok bs => .ok ((name, b) :: bs)
      | .error e => .error e
termination_by (sizeOf vals, 1 + sizeOf props, 0)
decreasing_by
  all_goals first
    | (have hsz := lookupVal_sizeOf_opt vals name
       decreasing_tactic)
    | decreasing_tactic

/-- `to_builtin` dispatched over the descriptor: only `REPEAT`
overrides the base method, mapping the base conversion over the
iterable's entries (config.py lines 256-257).  Iterating a dict yields
its keys and iterating a string yields its characters, both of which
pass through the base conversion unchanged. -/
def fieldToBuiltin (fieldDef : FieldDef) (v : Val) : Except PyExc Val :=
  match fieldDef with
  | .REPEAT _ =>
    match v with
    | .list xs =>
      match listToBuiltin xs with
      | .ok bs => .ok (.list bs)
      | .error e => .error e
    | .dict pairs => .ok (.list (pairs.map fun p => Val.str p.1))
    | .str s => .ok (.list (s.toList.map fun c => Val.str (String.mk [c])))
    | .arr xs => .ok (.list (xs.map Val.int))
    | other => .error (.valueError ("TypeError: \x27" ++ valTypeName other ++
        "\x27 object is not iterable"))
  | _ => baseToBuiltin v
termination_by (sizeOf v, 1, 0)

/-- The element loop of `REPEAT.to_builtin`. -/
def listToBuiltin : List Val → Except PyExc (List Val)
  | [] => .ok []
  | x :: rest =>
    match baseToBuiltin x with
    | .error e => .error e
    | .ok b =>
      match listToBuiltin rest with
      | .ok bs => .ok (b :: bs)
      | .error e => .error e
termination_by xs => (sizeOf xs, 0, 0)
end

/-- The outcome of `ConfigObject.from_json` when no exception escapes:
either the constructed object, or the `ValueError` instance that the
source *returns* (it does not raise it) after printing the report. -/
inductive FromJsonOut where
  | loaded (v : Val)
  | failure (msg : String)

/-- The text printed by `InitContext.print_report` (config.py lines
74-78) when at least one error was recorded. -/
def printReportStr (ctx : InitContext) : String :=
  "There occurred " ++ toString ctx.nErrors ++ " errors \n" ++ ctx.errorsStr

/-- `ConfigObject.from_json` (config.py lines 350-359) after JSON
decoding: construct under a fresh accumulate-mode context; on recorded
errors print the report and yield the failure value, otherwise yield
the object.  The `Option String` component is the printed report. -/
def fromJson (clsName : String) (props : List (String × FieldDef))
    (rawObj : List (String × Val)) :
    Except (PyExc × InitContext) (Option String × FromJsonOut) :=
  match configObjectInit clsName props rawObj {} with
  | .error e => .error e
  | .ok (obj, ctx') =>
    if ctx'.nErrors ≠ 0 then
      .ok (some (printReportStr ctx'), .failure ("Could not load " ++ clsName))
    else .ok (none, .loaded obj)

example :
    fieldConstruct (.REQUIRED (.prim .pInt)) (.int 3) {} = .ok (.int 3, {}) := by
  simp [fieldConstruct, typeWrapperConstruct, typeMatchesExactly]

example :
    configObjectInit "Pt" [("x", .REQUIRED (.prim .pInt))] [("x", .int 1)] {} =
      .ok (.obj "Pt" [("x", .REQUIRED (.prim .pInt))] [("x", .int 1)], {}) := by
  simp [configObjectInit, initFields, setPropertyWithCtx, fieldConstruct,
    typeWrapperConstruct, typeMatchesExactly, lookupVal, stepPush, stepPop,
    fieldTracebackType, validKeysOf]

/-- Extract the (mutated) context from a result, on both exit paths. -/
def resCtx {α : Type} : PyRes α → InitContext
  | .ok (_, c) => c
  | .error (_, c) => c

/-- How a context may change across any engine call: the frame stack and
the mode flag are restored, and errors only accumulate. -/
def ctxEvolves (ctx ctx' : InitContext) : Prop :=
  ctx'.stack = ctx.stack ∧ ctx'.raiseExceptions = ctx.raiseExceptions ∧
    ∃ δ, ctx'.errors = ctx.errors ++ δ

theorem ctxEvolves_refl (ctx : InitContext) : ctxEvolves ctx ctx :=
  ⟨rfl, rfl, [], by simp⟩

theorem ctxEvolves_trans {c1 c2 c3 : InitContext}
    (h1 : ctxEvolves c1 c2) (h2 : ctxEvolves c2 c3) : ctxEvolves c1 c3 := by
  obtain ⟨s1, r1, d1, e1⟩ := h1
  obtain ⟨s2, r2, d2, e2⟩ := h2
  exact ⟨s2.trans s1, r2.trans r1, d1 ++ d2, by simp [e2, e1]⟩

theorem resCtx_error (ctx : InitContext) (msg : String) :
    resCtx (ctx.error msg) = { ctx with errors := ctx.errors ++ [ctx.errorStr msg] } := by
  unfold InitContext.error
  split <;> rfl

theorem ctxEvolves_error (ctx : InitContext) (msg : String) :
    ctxEvolves ctx (resCtx (ctx.error msg)) := by
  rw [resCtx_error]
  exact ⟨rfl, rfl, [ctx.errorStr msg], rfl⟩

theorem ctxEvolves_scope {ctx c : InitContext} {kind name : String}
    (h : ctxEvolves (stepPush ctx kind name) c) : ctxEvolves ctx (stepPop c) := by
  obtain ⟨hs, hr, δ, he⟩ := h
  refine ⟨?_, hr, δ, he⟩
  simp [stepPop, hs, stepPush]

theorem ctxEvolves_all :
    (∀ (t : Ty) (v : Val) (ctx : InitContext),
      ctxEvolves ctx (resCtx (typeWrapperConstruct t v ctx))) ∧
    (∀ (f : FieldDef) (v : Val) (ctx : InitContext),
      ctxEvolves ctx (resCtx (fieldConstruct f v ctx))) ∧
    (∀ (t : Ty) (v : Val) (ctx : InitContext),
      ctxEvolves ctx (resCtx (repeatConstruct t v ctx))) ∧
    (∀ (t : Ty) (elems : List Val) (i : Nat) (ctx : InitContext),
      ctxEvolves ctx (resCtx (repeatElems t elems i ctx))) ∧
    (∀ (types : List Ty) (fixValues : List Val) (v : Val) (ctx : InitContext),
      ctxEvolves ctx (resCtx (eitherConstruct types fixValues v ctx))) ∧
    (∀ (types : List Ty) (v : Val) (ctx : InitContext),
      ctxEvolves ctx (resCtx (eitherCollect types v ctx))) ∧
    (∀ (clsName : String) (props : List (String × FieldDef))
      (kwargs : List (String × Val)) (ctx : InitContext),
      ctxEvolves ctx (resCtx (configObjectInit clsName props kwargs ctx))) ∧
    (∀ (props : List (String × FieldDef)) (kwargs : List (String × Val))
      (ctx : InitContext),
      ctxEvolves ctx (resCtx (initFields props kwargs ctx))) ∧
    (∀ (f : FieldDef) (v : Val) (ctx : InitContext),
      ctxEvolves ctx (resCtx (setPropertyWithCtx f v ctx))) := by
  apply typeWrapperConstruct.mutual_induct
  case case1 =>
    intro t value ctx h
    rw [typeWrapperConstruct.eq_def, if_pos h]
    exact ctxEvolves_refl ctx
  case case2 =>
    intro ctx name props pairs h ih
    rw [typeWrapperConstruct.eq_def, if_neg h]
    exact ih
  case case3 =>
    intro ctx name props v hne h
    rw [typeWrapperConstruct.eq_def, if_neg h]
    cases v <;> first
      | exact (hne _ rfl).elim
      | exact ctxEvolves_error _ _
  case case4 =>
    intro value ctx f h ih
    rw [typeWrapperConstruct.eq_def, if_neg h]
    exact ih
  case case5 =>
    intro value ctx p h
    rw [typeWrapperConstruct.eq_def, if_neg h]
    exact ctxEvolves_error _ _
  case case6 =>
    intro value ctx t ih
    rw [fieldConstruct.eq_def]
    exact ih
  case case7 =>
    intro ctx t dflt
    rw [fieldConstruct.eq_def]
    exact ctxEvolves_refl ctx
  case case8 =>
    intro ctx t dflt v hne ih
    rw [fieldConstruct.eq_def]
    cases v <;> first
      | exact (hne rfl).elim
      | exact ih
  case case9 =>
    intro value ctx types fixValues ih
    rw [fieldConstruct.eq_def]
    exact ih
  case case10 =>
    intro value ctx t ih
    rw [fieldConstruct.eq_def]
    exact ih
  case case11 =>
    intro value ctx t h
    rw [fieldConstruct.eq_def]
    simp only [if_pos h]
    exact ctxEvolves_refl ctx
  case case12 =>
    intro value ctx t h
    rw [fieldConstruct.eq_def]
    simp only [if_neg h]
    exact ctxEvolves_error _ _
  case case13 =>
    intro t ctx
    rw [repeatConstruct.eq_def]
    exact ctxEvolves_refl ctx
  case case14 =>
    intro t ctx s
    rw [repeatConstruct.eq_def]
    exact ctxEvolves_error _ _
  case case15 =>
    intro t ctx xs cs ctx'' hre ih
    rw [hre] at ih
    rw [repeatConstruct.eq_def]
    simp only [hre, resCtx]
    exact ih
  case case16 =>
    intro t ctx xs e hre ih
    obtain ⟨e1, c⟩ := e
    rw [hre] at ih
    rw [repeatConstruct.eq_def]
    simp only [hre, resCtx]
    exact ih
  case case17 =>
    intro t ctx pairs cs ctx'' hre ih
    rw [hre] at ih
    rw [repeatConstruct.eq_def]
    simp only [hre, resCtx]
    exact ih
  case case18 =>
    intro t ctx pairs e hre ih
    obtain ⟨e1, c⟩ := e
    rw [hre] at ih
    rw [repeatConstruct.eq_def]
    simp only [hre, resCtx]
    exact ih
  case case19 =>
    intro t ctx xs cs ctx'' hre ih
    rw [hre] at ih
    rw [repeatConstruct.eq_def]
    simp only [hre, resCtx]
    exact ih
  case case20 =>
    intro t ctx xs e hre ih
    obtain ⟨e1, c⟩ := e
    rw [hre] at ih
    rw [repeatConstruct.eq_def]
    simp only [hre, resCtx]
    exact ih
  case case21 =>
    intro t ctx v h1 h2 h3 h4 h5
    cases v <;> first
      | exact (h1 rfl).elim
      | exact (h2 _ rfl).elim
      | exact (h3 _ rfl).elim
      | exact (h4 _ rfl).elim
      | exact (h5 _ rfl).elim
      | (rw [repeatConstruct.eq_def]; exact ctxEvolves_error _ _)
  case case22 =>
    intro t i ctx
    rw [repeatElems.eq_def]
    exact ctxEvolves_refl ctx
  case case23 =>
    intro t i ctx v rest e c htw ih
    rw [htw] at ih
    rw [repeatElems.eq_def]
    simp only [htw, resCtx]
    exact ctxEvolves_scope ih
  case case24 =>
    intro t i ctx v rest c ctx2 htw cs ctx'' hre ih2 ih1
    rw [htw] at ih2
    rw [hre] at ih1
    rw [repeatElems.eq_def]
    simp only [htw, hre, resCtx]
    exact ctxEvolves_trans (ctxEvolves_scope ih2) ih1
  case case25 =>
    intro t i ctx v rest c ctx2 htw e hre ih2 ih1
    obtain ⟨e1, ce⟩ := e
    rw [htw] at ih2
    rw [hre] at ih1
    rw [repeatElems.eq_def]
    simp only [htw, hre, resCtx]
    exact ctxEvolves_trans (ctxEvolves_scope ih2) ih1
  case case26 =>
    intro types fixValues value ctx e hec ih
    obtain ⟨e1, c⟩ := e
    rw [hec] at ih
    rw [eitherConstruct.eq_def]
    simp only [hec, resCtx]
    exact ih
  case case27 =>
    intro types fixValues value ctx constructedValues ctx1 hec h s ss hts ih
    rw [hec] at ih
    rw [eitherConstruct.eq_def]
    simp only [hec, if_pos h, hts]
    exact ctxEvolves_trans ih (ctxEvolves_error _ _)
  case case28 =>
    intro types fixValues value ctx constructedValues ctx1 hec h hts ih
    rw [hec] at ih
    rw [eitherConstruct.eq_def]
    simp only [hec, if_pos h, hts]
    exact ctxEvolves_trans ih (ctxEvolves_error _ _)
  case case29 =>
    intro types fixValues value ctx ctx1 c0 tail hec h ih
    rw [hec] at ih
    rw [eitherConstruct.eq_def]
    simp only [hec, if_neg h, resCtx]
    exact ih
  case case30 =>
    intro types fixValues value ctx ctx1 hec h ih
    rw [hec] at ih
    rw [eitherConstruct.eq_def]
    simp only [hec, if_neg h, resCtx]
    exact ih
  case case31 =>
    intro value ctx
    rw [eitherCollect.eq_def]
    exact ctxEvolves_refl ctx
  case case32 =>
    intro value ctx t rest c ctx' htw cs ctx'' hec ih2 ih1
    rw [htw] at ih2
    rw [hec] at ih1
    rw [eitherCollect.eq_def]
    simp only [htw, hec, resCtx]
    exact ctxEvolves_trans ih2 ih1
  case case33 =>
    intro value ctx t rest c ctx' htw e hec ih2 ih1
    obtain ⟨e1, ce⟩ := e
    rw [htw] at ih2
    rw [hec] at ih1
    rw [eitherCollect.eq_def]
    simp only [htw, hec, resCtx]
    exact ctxEvolves_trans ih2 ih1
  case case34 =>
    intro value ctx t rest msg ctx' htw cs ctx'' hec ih2 ih1
    rw [htw] at ih2
    rw [hec] at ih1
    rw [eitherCollect.eq_def]
    simp only [htw, hec, resCtx]
    exact ctxEvolves_trans ih2 ih1
  case case35 =>
    intro value ctx t rest msg ctx' htw e hec ih2 ih1
    obtain ⟨e1, ce⟩ := e
    rw [htw] at ih2
    rw [hec] at ih1
    rw [eitherCollect.eq_def]
    simp only [htw, hec, resCtx]
    exact ctxEvolves_trans ih2 ih1
  case case36 =>
    intro value ctx t rest e hne htw ih
    obtain ⟨e1, ce⟩ := e
    cases e1 with
    | configException m => exact ((hne m ce rfl).elim)
    | valueError m =>
      rw [htw] at ih
      rw [eitherCollect.eq_def]
      simp only [htw, resCtx]
      exact ih
  case case37 =>
    intro clsName props kwargs ctx e c hif ih
    rw [hif] at ih
    rw [configObjectInit.eq_def]
    simp only [hif, resCtx]
    exact ctxEvolves_scope ih
  case case38 =>
    intro clsName props kwargs ctx fieldVals c hif kv hfind ih
    rw [hif] at ih
    rw [configObjectInit.eq_def]
    simp only [hif, hfind, resCtx]
    exact ctxEvolves_scope ih
  case case39 =>
    intro clsName props kwargs ctx fieldVals c hif hfind ih
    rw [hif] at ih
    rw [configObjectInit.eq_def]
    simp only [hif, hfind, resCtx]
    exact ctxEvolves_scope ih
  case case40 =>
    intro kwargs ctx
    rw [initFields.eq_def]
    exact ctxEvolves_refl ctx
  case case41 =>
    intro kwargs ctx name fieldDef rest e c hsp ih
    rw [hsp] at ih
    rw [initFields.eq_def]
    simp only [hsp, resCtx]
    exact ctxEvolves_scope ih
  case case42 =>
    intro kwargs ctx name fieldDef rest c ctx2' hsp vals ctx2 hrest ih2 ih1
    rw [hsp] at ih2
    rw [hrest] at ih1
    rw [initFields.eq_def]
    simp only [hsp, hrest, resCtx]
    exact ctxEvolves_trans (ctxEvolves_scope ih2) ih1
  case case43 =>
    intro kwargs ctx name fieldDef rest c ctx2 hsp e2 hrest ih2 ih1
    obtain ⟨e1, ce⟩ := e2
    rw [hsp] at ih2
    rw [hrest] at ih1
    rw [initFields.eq_def]
    simp only [hsp, hrest, resCtx]
    exact ctxEvolves_trans (ctxEvolves_scope ih2) ih1
  case case44 =>
    intro fieldDef value ctx c hfc ih
    rw [hfc] at ih
    rw [setPropertyWithCtx.eq_def]
    simp only [hfc, resCtx]
    exact ih
  case case45 =>
    intro fieldDef value ctx v c hne hfc ih
    rw [hfc] at ih
    rw [setPropertyWithCtx.eq_def]
    cases v <;> first
      | exact (hne rfl).elim
      | (simp only [hfc, resCtx]; exact ih)
  case case46 =>
    intro fieldDef value ctx e hfc ih
    obtain ⟨e1, ce⟩ := e
    rw [hfc] at ih
    rw [setPropertyWithCtx.eq_def]
    simp only [hfc, resCtx]
    exact ih

/-- **C10**: `REPEAT._construct` applied to the absent value returns an
absent result with the context untouched (no error recorded, nothing
constructed), even though the descriptor's `default()` is the empty
list; the empty list is substituted only by `_set_property`, the
schema-object field-resolution step. -/
theorem c10_repeat_none_defers_default :
    (∀ (t : Ty) (ctx : InitContext),
      repeatConstruct t Val.vnone ctx = .ok (Val.vnone, ctx)) ∧
    (∀ (t : Ty), fieldDefault (.REPEAT t) = Val.list []) ∧
    (∀ (t : Ty) (ctx : InitContext),
      setPropertyWithCtx (.REPEAT t) Val.vnone ctx = .ok (Val.list [], ctx)) := by
  refine ⟨fun t ctx => ?_, fun t => rfl, fun t ctx => ?_⟩
  · rw [repeatConstruct.eq_def]
  · rw [setPropertyWithCtx.eq_def]
    simp only [fieldConstruct, repeatConstruct, fieldDefault]

/-- **C8**: every `step_into` frame is popped on every exit path, so
after any construction call — through a field descriptor or a schema
object, successful or raising, in either mode — the context's frame
stack is exactly as it was before the call. -/
theorem c8_frame_stack_restored :
    (∀ (f : FieldDef) (v : Val) (ctx : InitContext),
      (resCtx (fieldConstruct f v ctx)).stack = ctx.stack) ∧
    (∀ (clsName : String) (props : List (String × FieldDef))
      (kwargs : List (String × Val)) (ctx : InitContext),
      (resCtx (configObjectInit clsName props kwargs ctx)).stack = ctx.stack) :=
  ⟨fun f v ctx => (ctxEvolves_all.2.1 f v ctx).1,
   fun clsName props kwargs ctx =>
    (ctxEvolves_all.2.2.2.2.2.2.1 clsName props kwargs ctx).1⟩

/-- **C1** (code bug): for `EITHER(int, "circle")` constructing the
value `"circle"`, exactly one truth bit is set (the literal), yet the
source's `return constructed_values[0]` (config.py line 222) yields the
failed `int` slot `None` instead of the matched literal `"circle"`. -/
theorem c1_either_returns_first_slot_not_match :
    eitherConstruct [Ty.prim .pInt] [Val.str "circle"] (Val.str "circle") {} =
      .ok (Val.vnone,
        { stack := [],
          errors := ["Expected type `int`, but got value `circle` with type `str`."],
          raiseExceptions := false }) ∧
    Val.vnone ≠ Val.str "circle" := by
  constructor
  · simp [eitherConstruct, eitherCollect, typeWrapperConstruct, typeMatchesExactly,
      InitContext.error, InitContext.errorStr, typeWrapperMismatchMsg, pyStr,
      tyDunderName, valTypeName, eitherTruths, pyEq]
  · intro h
    cases h

/-- **C3** (code bug): when `EITHER(int, str)` constructs `"hi"`, the
`str` alternative matches, the failed `int` alternative's exception is
swallowed (the call still succeeds) — but its message stays in the
context's error list in both modes, so the list does not remain
unchanged. -/
theorem c3_failed_alternative_error_recorded :
    (eitherConstruct [Ty.prim .pInt, Ty.prim .pStr] [] (Val.str "hi") {} =
      .ok (Val.vnone,
        { stack := [],
          errors := ["Expected type `int`, but got value `hi` with type `str`."],
          raiseExceptions := false })) ∧
    (eitherConstruct [Ty.prim .pInt, Ty.prim .pStr] [] (Val.str "hi")
        { raiseExceptions := true } =
      .ok (Val.vnone,
        { stack := [],
          errors := ["Expected type `int`, but got value `hi` with type `str`."],
          raiseExceptions := true })) ∧
    ({} : InitContext).errors = [] := by
  refine ⟨?_, ?_, rfl⟩ <;>
    simp [eitherConstruct, eitherCollect, typeWrapperConstruct, typeMatchesExactly,
      InitContext.error, InitContext.errorStr, typeWrapperMismatchMsg, pyStr,
      tyDunderName, valTypeName, eitherTruths, pyEq]

/-- **C7** (code bug): `ConfigObject.__eq__` tests
`np.all(self_prop == self_prop)` (config.py line 378) — the left
instance's array against itself — so two instances of the same record
type whose ndarray-typed field holds different arrays compare equal. -/
theorem c7_eq_ndarray_compares_self_with_self :
    pyEq (Val.obj "A" [("w", .REQUIRED (.prim .pArr))] [("w", Val.arr [1])])
         (Val.obj "A" [("w", .REQUIRED (.prim .pArr))] [("w", Val.arr [2])]) = true ∧
    Val.arr [1] ≠ Val.arr [2] := by
  constructor
  · simp [pyEq, cfgPropsEq, lookupVal, sameRuntimeClass, npAllEqual]
  · intro h
    cases h

/-- Popping right after pushing restores the context: the scoped
acquisition/release pair of `step_into` is the identity. -/
theorem stepPop_stepPush (ctx : InitContext) (kind name : String) :
    stepPop (stepPush ctx kind name) = ctx := by
  simp [stepPop, stepPush]

/-- **C5**: a supplied key that is not a declared field name (nor
`"__ctx__"`) makes `ConfigObject.__init__` raise a hard `ValueError`
naming that key (the first such key in the mapping), provided the
per-field loop itself returned. -/
theorem c5_unknown_key_hard_error (clsName : String) (props : List (String × FieldDef))
    (kwargs : List (String × Val)) (ctx : InitContext) (fieldVals : List (String × Val))
    (c : InitContext) (k : String) (v : Val)
    (hfields : initFields props kwargs (stepPush ctx "Object" clsName) = .ok (fieldVals, c))
    (hfind : kwargs.find? (fun kv => !((validKeysOf props).contains kv.1)) = some (k, v)) :
    configObjectInit clsName props kwargs ctx =
      .error (.valueError (notAllowedKeyMsg k (validKeysOf props)), stepPop c) ∧
    (k, v) ∈ kwargs ∧ k ∉ validKeysOf props ∧
    ∃ pre post, notAllowedKeyMsg k (validKeysOf props) = pre ++ k ++ post := by
  refine ⟨?_, List.mem_of_find?_eq_some hfind, ?_,
    "\x27", "\x27 is not in the allowed keys `" ++ strListStr (validKeysOf props) ++ "`", ?_⟩
  · rw [configObjectInit.eq_def]
    simp only [hfields, hfind]
  · have h := List.find?_some hfind
    simp only [Bool.not_eq_true'] at h
    simpa using h
  · simp [notAllowedKeyMsg, String.append_assoc]

/-- Witness for C5 at a concrete schema and mapping. -/
theorem c5_unknown_key_hard_error_witness :
    configObjectInit "Pt" [("x", .REQUIRED (.prim .pInt))]
        [("x", Val.int 1), ("z", Val.int 2)] {} =
      .error (.valueError (notAllowedKeyMsg "z"
          (validKeysOf [("x", .REQUIRED (.prim .pInt))])),
        stepPop (stepPush {} "Object" "Pt")) ∧
    ("z", Val.int 2) ∈ ([("x", Val.int 1), ("z", Val.int 2)] : List (String × Val)) ∧
    "z" ∉ validKeysOf [("x", .REQUIRED (.prim .pInt))] ∧
    ∃ pre post, notAllowedKeyMsg "z" (validKeysOf [("x", .REQUIRED (.prim .pInt))]) =
      pre ++ "z" ++ post :=
  c5_unknown_key_hard_error "Pt" _ _ {} [("x", Val.int 1)]
    (stepPush {} "Object" "Pt") "z" (Val.int 2)
    (by simp [initFields, setPropertyWithCtx, fieldConstruct, typeWrapperConstruct,
      typeMatchesExactly, lookupVal, stepPop_stepPush, fieldTracebackType])
    (by simp [List.find?, validKeysOf])

/-- **C4**: `from_json` constructs under a fresh accumulate-mode
context; with recorded errors it prints a report giving the error count
and the joined trace and yields the failure value (never the
partially-constructed object); with no recorded errors it yields the
constructed object. -/
theorem c4_fromJson_accumulates_and_reports (clsName : String)
    (props : List (String × FieldDef)) (rawObj : List (String × Val))
    (obj : Val) (ctx' : InitContext)
    (h : configObjectInit clsName props rawObj {} = .ok (obj, ctx')) :
    ({} : InitContext).raiseExceptions = false ∧
    (ctx'.errors ≠ [] →
      fromJson clsName props rawObj =
        .ok (some ("There occurred " ++ toString ctx'.errors.length ++ " errors \n" ++
              String.intercalate "\n" ctx'.errors),
            .failure ("Could not load " ++ clsName))) ∧
    (ctx'.errors = [] → fromJson clsName props rawObj = .ok (none, .loaded obj)) := by
  refine ⟨rfl, fun hne => ?_, fun he => ?_⟩
  · unfold fromJson
    simp only [h]
    rw [if_pos (by simp [InitContext.nErrors, hne])]
    simp [printReportStr, InitContext.nErrors, InitContext.errorsStr]
  · unfold fromJson
    simp only [h]
    rw [if_neg (by simp [InitContext.nErrors, he])]

/-- Witness for C4: a valid mapping for a one-field schema loads. -/
theorem c4_fromJson_accumulates_and_reports_witness :
    fromJson "Pt" [("x", .REQUIRED (.prim .pInt))] [("x", Val.int 1)] =
      .ok (none, .loaded (Val.obj "Pt" [("x", .REQUIRED (.prim .pInt))]
        [("x", Val.int 1)])) :=
  (c4_fromJson_accumulates_and_reports "Pt" _ _ _ {}
    (by simp [configObjectInit, initFields, setPropertyWithCtx, fieldConstruct,
      typeWrapperConstruct, typeMatchesExactly, lookupVal, stepPush, stepPop,
      fieldTracebackType, validKeysOf])).2.2 rfl

/-- **C9** (amended): `valid` returns `True` exactly when construction
under a fresh raise-mode context completes without raising anything; a
raised `ConfigException` is converted to `False` and never propagated;
any other exception (the unknown-field `ValueError`) propagates. -/
theorem c9_valid_semantics (f : FieldDef) (v : Val) :
    (fieldValid f v = .ok true ↔
      ∃ w c, fieldConstruct f v { raiseExceptions := true } = .ok (w, c)) ∧
    (∀ m c, fieldConstruct f v { raiseExceptions := true } =
        .error (.configException m, c) → fieldValid f v = .ok false) ∧
    (∀ m, fieldValid f v ≠ .error (.configException m)) := by
  unfold fieldValid
  rcases hr : fieldConstruct f v { raiseExceptions := true } with ⟨e, c⟩ | ⟨w, c⟩
  · cases e with
    | configException m =>
      refine ⟨⟨fun hc => by simp at hc, fun ⟨w', c', hc⟩ => by simp at hc⟩,
        fun _ _ _ => rfl, fun m' => by simp⟩
    | valueError m =>
      refine ⟨⟨fun hc => by simp at hc, fun ⟨w', c', hc⟩ => by simp at hc⟩,
        fun m' c' hm => by simp at hm, fun m' => by simp⟩
  · refine ⟨⟨fun _ => ⟨w, c, rfl⟩, fun _ => rfl⟩,
      fun m' c' hm => by simp at hm, fun m' => by simp⟩

/-- Witness for the amended C9: a conforming value validates, a
type-mismatching value yields `False` via a caught `ConfigException`. -/
theorem c9_valid_semantics_witness :
    fieldValid (.REQUIRED (.prim .pInt)) (.int 3) = .ok true ∧
    fieldValid (.REQUIRED (.prim .pInt)) (.str "a") = .ok false := by
  constructor
  · exact (c9_valid_semantics _ _).1.mpr ⟨.int 3, { raiseExceptions := true }, by
      simp [fieldConstruct, typeWrapperConstruct, typeMatchesExactly]⟩
  · exact (c9_valid_semantics _ _).2.1
      ("Expected type `int`, but got value `a` with type `str`.")
      { errors := ["Expected type `int`, but got value `a` with type `str`."],
        raiseExceptions := true }
      (by simp [fieldConstruct, typeWrapperConstruct, typeMatchesExactly,
        InitContext.error, InitContext.errorStr, typeWrapperMismatchMsg, pyStr,
        tyDunderName, valTypeName])

/-- **C9** (counterexample to the claim as stated): constructing a
nested-schema value with an extra key under a fresh raise-mode context
raises the unknown-field `ValueError` — no `ConfigException` is raised
— yet `valid` does not return `True`: it propagates the `ValueError`. -/
theorem c9_valid_not_iff_no_config_exception :
    fieldValid (.REQUIRED (.cls "Pt" [("x", .REQUIRED (.prim .pInt))]))
        (.dict [("x", Val.int 1), ("z", Val.int 2)]) =
      .error (.valueError
        "\x27z\x27 is not in the allowed keys `[\x27x\x27, \x27__ctx__\x27]`") ∧
    fieldConstruct (.REQUIRED (.cls "Pt" [("x", .REQUIRED (.prim .pInt))]))
        (.dict [("x", Val.int 1), ("z", Val.int 2)]) { raiseExceptions := true } =
      .error (.valueError
        "\x27z\x27 is not in the allowed keys `[\x27x\x27, \x27__ctx__\x27]`",
        { stack := [], errors := [], raiseExceptions := true }) := by
  have hc : fieldConstruct (.REQUIRED (.cls "Pt" [("x", .REQUIRED (.prim .pInt))]))
      (.dict [("x", Val.int 1), ("z", Val.int 2)]) { raiseExceptions := true } =
      .error (.valueError
        "\x27z\x27 is not in the allowed keys `[\x27x\x27, \x27__ctx__\x27]`",
        { stack := [], errors := [], raiseExceptions := true }) := by
    simp [fieldConstruct, typeWrapperConstruct, typeMatchesExactly, configObjectInit,
      initFields, setPropertyWithCtx, lookupVal, validKeysOf, notAllowedKeyMsg,
      strListStr, stepPush, stepPop, fieldTracebackType, List.find?]
    decide
  refine ⟨?_, hc⟩
  unfold fieldValid
  rw [hc]

/-- When every element of a list constructs cleanly (same value under
any context, context returned untouched), the element loop of
`REPEAT._construct` returns exactly the constructed values in order:
each `step_into("List", "at element i")` frame is pushed, the element
constructed, and the frame popped. -/
theorem repeatElems_clean {t : Ty} {els ws : List Val}
    (h : List.Forall₂ (fun el w => ∀ c : InitContext,
        typeWrapperConstruct t el c = .ok (w, c)) els ws) :
    ∀ (i : Nat) (ctx : InitContext), repeatElems t els i ctx = .ok (ws, ctx) := by
  induction h with
  | nil =>
    intro i ctx
    rw [repeatElems.eq_def]
  | cons h1 h2 ih =>
    intro i ctx
    rw [repeatElems.eq_def]
    simp only [h1, stepPop_stepPush, ih]

/-- **C6**: `REPEAT._construct` records a shape-mismatch error for every
string value — the message never depends on the string's characters —
and returns no list; an ordered sequence whose elements all construct
cleanly for the element type yields the ordered list of exactly the
constructed elements, produced by the positional-frame element loop. -/
theorem c6_repeat_rejects_str_and_preserves_order (t : Ty) (ctx : InitContext) :
    (∀ s : String, repeatConstruct t (.str s) ctx =
        ctx.error "Expected a list, but got a str.") ∧
    (∀ s : String, (resCtx (repeatConstruct t (.str s) ctx)).errors =
        ctx.errors ++ [ctx.errorStr "Expected a list, but got a str."]) ∧
    (∀ (s : String) (xs : List Val) (c : InitContext),
        repeatConstruct t (.str s) ctx ≠ .ok (.list xs, c)) ∧
    (∀ (els ws : List Val),
        List.Forall₂ (fun el w => ∀ c : InitContext,
          typeWrapperConstruct t el c = .ok (w, c)) els ws →
        repeatConstruct t (.list els) ctx = .ok (.list ws, ctx) ∧
        ws.length = els.length ∧
        repeatElems t els 0 ctx = .ok (ws, ctx)) := by
  have hstr : ∀ s : String, repeatConstruct t (.str s) ctx =
      ctx.error "Expected a list, but got a str." := by
    intro s
    rw [repeatConstruct.eq_def]
  refine ⟨hstr, fun s => ?_, fun s xs c hcontra => ?_, fun els ws h => ?_⟩
  · rw [hstr s, resCtx_error]
  · rw [hstr s] at hcontra
    unfold InitContext.error at hcontra
    split at hcontra <;> simp at hcontra
  · have he := repeatElems_clean h 0 ctx
    refine ⟨?_, (List.Forall₂.length_eq h).symm, he⟩
    rw [repeatConstruct.eq_def]
    simp only [he]

/-- Witness for C6 at a two-element integer list. -/
theorem c6_repeat_rejects_str_and_preserves_order_witness :
    repeatConstruct (.prim .pInt) (.list [Val.int 5, Val.int 7]) {} =
      .ok (.list [Val.int 5, Val.int 7], {}) ∧
    ([Val.int 5, Val.int 7] : List Val).length = 2 := by
  have h := ((c6_repeat_rejects_str_and_preserves_order (.prim .pInt) {}).2.2.2
    [Val.int 5, Val.int 7] [Val.int 5, Val.int 7]
    (by
      refine List.Forall₂.cons (fun c => ?_) (List.Forall₂.cons (fun c => ?_) .nil) <;>
        simp [typeWrapperConstruct, typeMatchesExactly]))
  exact ⟨h.1, rfl⟩

/-! ### Round-trip (C2) infrastructure -/

mutual
/-- Plain JSON-decoded data: no constructed instances and no ndarrays
anywhere (the value universe `from_json` receives). -/
def jsonVal : Val → Bool
  | .vnone => true
  | .int _ => true
  | .str _ => true
  | .list xs => jsonValList xs
  | .dict pairs => jsonValPairs pairs
  | _ => false
termination_by v => (sizeOf v, 0)

def jsonValList : List Val → Bool
  | [] => true
  | v :: rest => jsonVal v && jsonValList rest
termination_by xs => (sizeOf xs, 1)

def jsonValPairs : List (String × Val) → Bool
  | [] => true
  | (_, v) :: rest => jsonVal v && jsonValPairs rest
termination_by ps => (sizeOf ps, 1)
end

mutual
/-- A self-describing declared type in the sense of the round-trip
property: a primitive (`int` or `str`) or a schema object whose fields
are all self-describing. -/
def sdTy : Ty → Bool
  | .prim .pInt => true
  | .prim .pStr => true
  | .cls _ props => sdProps props
  | _ => false
termination_by t => sizeOf t

/-- A self-describing field: `REQUIRED` or `REPEAT` over a
self-describing type. -/
def sdField : FieldDef → Bool
  | .REQUIRED t => sdTy t
  | .REPEAT t => sdTy t
  | _ => false
termination_by f => sizeOf f

/-- Self-describing declared properties with pairwise-distinct names
(as in a Python class dict). -/
def sdProps : List (String × FieldDef) → Bool
  | [] => true
  | (name, f) :: rest =>
    sdField f && !((rest.map Prod.fst).contains name) && sdProps rest
termination_by ps => sizeOf ps
end

mutual
/-- Values reachable as resolved fields of a validly constructed
self-describing object: ints, strings, lists thereof, and constructed
objects with distinct property names. -/
def cleanVal : Val → Bool
  | .int _ => true
  | .str _ => true
  | .list xs => cleanValList xs
  | .obj _ _ vals => cleanValPairs vals
  | _ => false
termination_by v => (sizeOf v, 0)

def cleanValList : List Val → Bool
  | [] => true
  | v :: rest => cleanVal v && cleanValList rest
termination_by xs => (sizeOf xs, 1)

def cleanValPairs : List (String × Val) → Bool
  | [] => true
  | (name, v) :: rest =>
    cleanVal v && !((rest.map Prod.fst).contains name) && cleanValPairs rest
termination_by ps => (sizeOf ps, 1)
end

/-- An accumulate-mode success whose result context still carries new
errors cannot come from `InitContext.error`. -/
theorem error_not_clean {ctx ctx₂ : InitContext} {msg : String} {w : Val}
    (h : ctx.error msg = .ok (w, ctx₂)) : ctx₂.errors ≠ ctx.errors := by
  unfold InitContext.error at h
  split at h
  · cases h
  · cases h
    simp

/-- Looked-up values of a JSON mapping are JSON values (`None` when the
key is absent). -/
theorem jsonVal_lookup {kwargs : List (String × Val)} {name : String}
    (h : jsonValPairs kwargs = true) :
    jsonVal ((lookupVal kwargs name).getD Val.vnone) = true := by
  induction kwargs with
  | nil => simp [lookupVal, jsonVal]
  | cons hd tl ih =>
    obtain ⟨k, v⟩ := hd
    rw [jsonValPairs] at h
    simp only [Bool.and_eq_true] at h
    by_cases hk : k == name
    · simp [lookupVal, hk, h.1]
    · simp only [lookupVal, hk]
      exact ih h.2

/-- The keys of a mapping, taken as values, are JSON values. -/
theorem jsonValList_keys (pairs : List (String × Val)) :
    jsonValList (pairs.map fun p => Val.str p.1) = true := by
  induction pairs with
  | nil => simp [jsonValList]
  | cons hd tl ih => simp [jsonValList, jsonVal, ih]

/-- Keys distinct from the head key look past a front binding. -/
theorem lookupVal_skip {name n : String} (hne : n ≠ name) (b : Val)
    (kwargs : List (String × Val)) :
    lookupVal ((name, b) :: kwargs) n = lookupVal kwargs n := by
  have hb : (name == n) = false := by
    simpa using fun hc : name = n => hne hc.symm
  simp [lookupVal, hb]

/-- `initFields` reads the supplied mapping only through the declared
names, so a binding for a name foreign to the properties is
invisible. -/
theorem initFields_skip {props : List (String × FieldDef)} {name : String}
    (b : Val) (kwargs : List (String × Val)) (ctx : InitContext)
    (h : name ∉ props.map Prod.fst) :
    initFields props ((name, b) :: kwargs) ctx = initFields props kwargs ctx := by
  induction props generalizing ctx with
  | nil => rw [initFields.eq_def, initFields.eq_def]
  | cons hd tl ih =>
    obtain ⟨n, f⟩ := hd
    simp only [List.map_cons, List.mem_cons, not_or] at h
    rw [initFields.eq_def]
    conv_rhs => rw [initFields.eq_def]
    simp only [lookupVal_skip (fun hc => h.1 hc.symm) b kwargs]
    cases hsp : setPropertyWithCtx f ((lookupVal kwargs n).getD Val.vnone)
        (stepPush ctx (fieldTracebackType f) n) with
    | error e => simp only [hsp]
    | ok rc =>
      obtain ⟨resolved, c⟩ := rc
      simp only [hsp, ih (stepPop c) h.2]

/-- `_to_builtin` reads the instance dict only through the declared
property names, so a foreign front binding is invisible. -/
theorem propsToBuiltin_skip {props : List (String × FieldDef)} {name : String}
    (w : Val) (vals : List (String × Val))
    (h : name ∉ props.map Prod.fst) :
    propsToBuiltin props ((name, w) :: vals) = propsToBuiltin props vals := by
  induction props with
  | nil => simp only [propsToBuiltin]
  | cons hd tl ih =>
    obtain ⟨n, f⟩ := hd
    simp only [List.map_cons, List.mem_cons, not_or] at h
    simp only [propsToBuiltin, lookupVal_skip (fun hc => h.1 hc.symm) w vals, ih h.2]

/-- Two stacked error-accumulation steps that end where they started
were both silent. -/
theorem clean_split {c1 c2 c3 : InitContext}
    (h12 : ∃ δ, c2.errors = c1.errors ++ δ)
    (h23 : ∃ δ, c3.errors = c2.errors ++ δ)
    (h : c3.errors = c1.errors) :
    c2.errors = c1.errors ∧ c3.errors = c2.errors := by
  obtain ⟨d1, e1⟩ := h12
  obtain ⟨d2, e2⟩ := h23
  have hlen := congrArg List.length h
  rw [e2, e1] at hlen
  simp only [List.length_append] at hlen
  have hd1 : d1 = [] := List.eq_nil_of_length_eq_zero (by omega)
  have hd2 : d2 = [] := List.eq_nil_of_length_eq_zero (by omega)
  subst hd1 hd2
  simp at e1 e2
  exact ⟨e1, e2⟩

/-- Runtime-class comparison is reflexive. -/
theorem sameRuntimeClass_refl (v : Val) : sameRuntimeClass v v = true := by
  cases v <;> simp [sameRuntimeClass]

/-- The values of a clean property dict form a clean list. -/
theorem cleanValPairs_snd {m : List (String × Val)} (h : cleanValPairs m = true) :
    cleanValList (m.map Prod.snd) = true := by
  induction m with
  | nil => simp [cleanValList]
  | cons hd tl ih =>
    obtain ⟨n, v⟩ := hd
    rw [cleanValPairs] at h
    simp only [Bool.and_eq_true] at h
    simp only [List.map_cons]
    rw [cleanValList]
    simp [h.1.1, ih h.2]

/-- In a dict with pairwise-distinct keys, every binding is found by
lookup. -/
theorem cleanValPairs_lookup {m : List (String × Val)} (h : cleanValPairs m = true) :
    ∀ p ∈ m, lookupVal m p.1 = some p.2 := by
  induction m with
  | nil => simp
  | cons hd tl ih =>
    obtain ⟨n, v⟩ := hd
    rw [cleanValPairs] at h
    simp only [Bool.and_eq_true] at h
    intro p hp
    rcases List.mem_cons.mp hp with hp | hp
    · subst hp
      simp [lookupVal]
    · have hmem : p.1 ∈ tl.map Prod.fst := List.mem_map_of_mem Prod.fst hp
      have hne : p.1 ≠ n := by
        intro hc
        subst hc
        have := h.1.2
        simp only [Bool.not_eq_true'] at this
        revert this
        simpa using hmem
      rw [lookupVal_skip hne v tl]
      exact ih h.2 p hp

mutual
/-- Python `==` is reflexive on the values reachable as resolved fields
of self-describing constructions. -/
theorem pyEq_refl : ∀ (v : Val), cleanVal v = true → pyEq v v = true
  | .int n, _ => by simp [pyEq]
  | .str s, _ => by simp [pyEq]
  | .list xs, h => by
    rw [pyEq]
    exact pyEqList_refl xs (by rwa [cleanVal] at h)
  | .obj c p vals, h => by
    rw [pyEq]
    simp only [bne_self_eq_false, Bool.false_eq_true, if_false]
    exact cfgPropsEq_sub vals vals
      (cleanValPairs_snd (by rwa [cleanVal] at h))
      (cleanValPairs_lookup (by rwa [cleanVal] at h))
  | .vnone, h => by simp [cleanVal] at h
  | .dict m, h => by simp [cleanVal] at h
  | .arr xs, h => by simp [cleanVal] at h
termination_by v => (sizeOf v, 1)

theorem pyEqList_refl : ∀ (xs : List Val), cleanValList xs = true →
    pyEqList xs xs = true
  | [], _ => by rw [pyEqList]
  | x :: rest, h => by
    rw [cleanValList] at h
    simp only [Bool.and_eq_true] at h
    rw [pyEqList]
    simp [pyEq_refl x h.1, pyEqList_refl rest h.2]
termination_by xs => (sizeOf xs, 0)

/-- The property loop of `__eq__` succeeds when every walked binding is
found unchanged in the other dict and its value is clean. -/
theorem cfgPropsEq_sub : ∀ (sub full : List (String × Val)),
    cleanValList (sub.map Prod.snd) = true →
    (∀ p ∈ sub, lookupVal full p.1 = some p.2) →
    cfgPropsEq sub full = true
  | [], _, _, _ => by rw [cfgPropsEq]
  | (n, sp) :: rest, full, hclean, hlk => by
    simp only [List.map_cons] at hclean
    rw [cleanValList] at hclean
    simp only [Bool.and_eq_true] at hclean
    have h1 : lookupVal full n = some sp := hlk (n, sp) (by simp)
    rw [cfgPropsEq]
    simp only [h1, sameRuntimeClass_refl, Bool.and_self, Bool.not_true,
      Bool.false_eq_true, if_false]
    have hrest := cfgPropsEq_sub rest full hclean.2 (fun p hp => hlk p (by simp [hp]))
    cases hsp : sp with
    | arr xs => rw [hsp] at hclean; simp [cleanVal] at hclean
    | vnone => rw [hsp] at hclean; simp [cleanVal] at hclean
    | dict m => rw [hsp] at hclean; simp [cleanVal] at hclean
    | int m =>
      simp only [pyEq_refl _ (hsp ▸ hclean.1), Bool.not_true, Bool.false_eq_true,
        if_false]
      exact hrest
    | str s =>
      simp only [pyEq_refl _ (hsp ▸ hclean.1), Bool.not_true, Bool.false_eq_true,
        if_false]
      exact hrest
    | list xs =>
      simp only [pyEq_refl _ (hsp ▸ hclean.1), Bool.not_true, Bool.false_eq_true,
        if_false]
      exact hrest
    | obj c p vals =>
      simp only [pyEq_refl _ (hsp ▸ hclean.1), Bool.not_true, Bool.false_eq_true,
        if_false]
      exact hrest
termination_by sub _ => (sizeOf sub, 0)
end

/-- Head binding is found first. -/
theorem lookupVal_head (k : String) (v : Val) (m : List (String × Val)) :
    lookupVal ((k, v) :: m) k = some v := by
  simp [lookupVal]

/-- A mapping whose keys are exactly the declared names passes the
unknown-key scan of `ConfigObject.__init__`. -/
theorem find_foreign_none {bpairs : List (String × Val)}
    {props : List (String × FieldDef)}
    (h : bpairs.map Prod.fst = props.map Prod.fst) :
    bpairs.find? (fun kv => !((validKeysOf props).contains kv.1)) = none := by
  apply List.find?_eq_none.mpr
  intro kv hkv
  have hm : kv.1 ∈ validKeysOf props := by
    rw [validKeysOf]
    exact List.mem_append_left _ (by rw [← h]; exact List.mem_map_of_mem _ hkv)
  simp [hm]

/-- `_set_property` passes a non-`None` constructed value through. -/
theorem setProperty_construct_ok {f : FieldDef} {v w : Val} {ctx c : InitContext}
    (h : fieldConstruct f v ctx = .ok (w, c)) (hne : w ≠ .vnone) :
    setPropertyWithCtx f v ctx = .ok (w, c) := by
  rw [setPropertyWithCtx.eq_def, h]
  cases w <;> first | exact (hne rfl).elim | rfl

/-- Conversely, a successful `_set_property` over a non-`None`
construction returns exactly the constructed value and context. -/
theorem setProperty_ok_inv {f : FieldDef} {value v w : Val} {ctx c ctx₂ : InitContext}
    (hfc : fieldConstruct f value ctx = .ok (v, c)) (hne : v ≠ .vnone)
    (hok : setPropertyWithCtx f value ctx = .ok (w, ctx₂)) : w = v ∧ ctx₂ = c := by
  rw [setProperty_construct_ok hfc hne] at hok
  simp at hok
  exact ⟨hok.1.symm, hok.2.symm⟩

/-- Round-trip contract of the type wrapper on a self-describing type:
a clean success yields a non-absent clean value whose base serialization
is plain data that reconstructs to the same value under any context. -/
def RTtyP (t : Ty) (value : Val) (ctx : InitContext) : Prop :=
  ∀ w ctx₂, typeWrapperConstruct t value ctx = .ok (w, ctx₂) →
    ctx₂.errors = ctx.errors → jsonVal value = true → sdTy t = true →
    w ≠ Val.vnone ∧ cleanVal w = true ∧
    ∃ b, baseToBuiltin w = .ok b ∧ jsonVal b = true ∧
      ∀ c, typeWrapperConstruct t b c = .ok (w, c)

/-- Round-trip contract of `_construct` dispatch over self-describing
fields. -/
def RTfcP (f : FieldDef) (value : Val) (ctx : InitContext) : Prop :=
  ∀ w ctx₂, fieldConstruct f value ctx = .ok (w, ctx₂) →
    ctx₂.errors = ctx.errors → jsonVal value = true → sdField f = true →
    match f with
    | .REQUIRED t =>
      w ≠ Val.vnone ∧ cleanVal w = true ∧
      ∃ b, baseToBuiltin w = .ok b ∧ jsonVal b = true ∧
        ∀ c, typeWrapperConstruct t b c = .ok (w, c)
    | .REPEAT t =>
      w = Val.vnone ∨
      ∃ ws bs, w = .list ws ∧ cleanValList ws = true ∧ listToBuiltin ws = .ok bs ∧
        jsonValList bs = true ∧ ∀ c i, repeatElems t bs i c = .ok (ws, c)
    | _ => True

/-- Round-trip contract of `REPEAT._construct`. -/
def RTrcP (t : Ty) (value : Val) (ctx : InitContext) : Prop :=
  ∀ w ctx₂, repeatConstruct t value ctx = .ok (w, ctx₂) →
    ctx₂.errors = ctx.errors → jsonVal value = true → sdTy t = true →
    w = Val.vnone ∨
    ∃ ws bs, w = .list ws ∧ cleanValList ws = true ∧ listToBuiltin ws = .ok bs ∧
      jsonValList bs = true ∧ ∀ c i, repeatElems t bs i c = .ok (ws, c)

/-- Round-trip contract of the positional element loop. -/
def RTelemsP (t : Ty) (els : List Val) (i : Nat) (ctx : InitContext) : Prop :=
  ∀ ws ctx₂, repeatElems t els i ctx = .ok (ws, ctx₂) →
    ctx₂.errors = ctx.errors → jsonValList els = true → sdTy t = true →
    cleanValList ws = true ∧
    ∃ bs, listToBuiltin ws = .ok bs ∧ jsonValList bs = true ∧
      ∀ c i, repeatElems t bs i c = .ok (ws, c)

/-- Round-trip contract of `ConfigObject.__init__`. -/
def RTobjP (clsName : String) (props : List (String × FieldDef))
    (kwargs : List (String × Val)) (ctx : InitContext) : Prop :=
  ∀ x ctx₂, configObjectInit clsName props kwargs ctx = .ok (x, ctx₂) →
    ctx₂.errors = ctx.errors → jsonValPairs kwargs = true → sdProps props = true →
    cleanVal x = true ∧
    ∃ fvals bpairs, x = .obj clsName props fvals ∧
      baseToBuiltin x = .ok (.dict bpairs) ∧ jsonValPairs bpairs = true ∧
      ∀ c, configObjectInit clsName props bpairs c = .ok (x, c)

/-- Round-trip contract of the per-field construction loop. -/
def RTfieldsP (props : List (String × FieldDef)) (kwargs : List (String × Val))
    (ctx : InitContext) : Prop :=
  ∀ fvals ctx₂, initFields props kwargs ctx = .ok (fvals, ctx₂) →
    ctx₂.errors = ctx.errors → jsonValPairs kwargs = true → sdProps props = true →
    fvals.map Prod.fst = props.map Prod.fst ∧ cleanValPairs fvals = true ∧
    ∃ bpairs, propsToBuiltin props fvals = .ok bpairs ∧ jsonValPairs bpairs = true ∧
      bpairs.map Prod.fst = props.map Prod.fst ∧
      ∀ c, initFields props bpairs c = .ok (fvals, c)

/-- Round-trip contract of `_set_property`. -/
def RTspP (f : FieldDef) (value : Val) (ctx : InitContext) : Prop :=
  ∀ w ctx₂, setPropertyWithCtx f value ctx = .ok (w, ctx₂) →
    ctx₂.errors = ctx.errors → jsonVal value = true → sdField f = true →
    cleanVal w = true ∧
    ∃ b, fieldToBuiltin f w = .ok b ∧ jsonVal b = true ∧
      ∀ c, setPropertyWithCtx f b c = .ok (w, c)

theorem roundTrip_all :
    (∀ (t : Ty) (v : Val) (ctx : InitContext), RTtyP t v ctx) ∧
    (∀ (f : FieldDef) (v : Val) (ctx : InitContext), RTfcP f v ctx) ∧
    (∀ (t : Ty) (v : Val) (ctx : InitContext), RTrcP t v ctx) ∧
    (∀ (t : Ty) (els : List Val) (i : Nat) (ctx : InitContext), RTelemsP t els i ctx) ∧
    (∀ (_ : List Ty) (_ : List Val) (_ : Val) (_ : InitContext), True) ∧
    (∀ (_ : List Ty) (_ : Val) (_ : InitContext), True) ∧
    (∀ (clsName : String) (props : List (String × FieldDef))
      (kwargs : List (String × Val)) (ctx : InitContext), RTobjP clsName props kwargs ctx) ∧
    (∀ (props : List (String × FieldDef)) (kwargs : List (String × Val))
      (ctx : InitContext), RTfieldsP props kwargs ctx) ∧
    (∀ (f : FieldDef) (v : Val) (ctx : InitContext), RTspP f v ctx) := by
  apply typeWrapperConstruct.mutual_induct
  case case1 =>
    intro t value ctx h
    intro w ctx₂ hok herr hjson hsd
    rw [typeWrapperConstruct.eq_def, if_pos h] at hok
    simp at hok
    obtain ⟨rfl, rfl⟩ := hok
    cases t with
    | prim p =>
      cases p with
      | pInt =>
        cases value with
        | int n =>
          exact ⟨by simp, by rw [cleanVal], .int n, by rw [baseToBuiltin],
            by rw [jsonVal], fun c => by rw [typeWrapperConstruct.eq_def, if_pos h]⟩
        | vnone => simp [typeMatchesExactly] at h
        | str s => simp [typeMatchesExactly] at h
        | list xs => simp [typeMatchesExactly] at h
        | dict m => simp [typeMatchesExactly] at h
        | arr xs => simp [typeMatchesExactly] at h
        | obj a b c => simp [typeMatchesExactly] at h
      | pStr =>
        cases value with
        | str s =>
          exact ⟨by simp, by rw [cleanVal], .str s, by rw [baseToBuiltin],
            by rw [jsonVal], fun c => by rw [typeWrapperConstruct.eq_def, if_pos h]⟩
        | vnone => simp [typeMatchesExactly] at h
        | int n => simp [typeMatchesExactly] at h
        | list xs => simp [typeMatchesExactly] at h
        | dict m => simp [typeMatchesExactly] at h
        | arr xs => simp [typeMatchesExactly] at h
        | obj a b c => simp [typeMatchesExactly] at h
      | pList => simp [sdTy] at hsd
      | pDict => simp [sdTy] at hsd
      | pArr => simp [sdTy] at hsd
    | cls nm props =>
      cases value with
      | obj a b c => simp [jsonVal] at hjson
      | vnone => simp [typeMatchesExactly] at h
      | int n => simp [typeMatchesExactly] at h
      | str s => simp [typeMatchesExactly] at h
      | list xs => simp [typeMatchesExactly] at h
      | dict m => simp [typeMatchesExactly] at h
      | arr xs => simp [typeMatchesExactly] at h
    | fld f => simp [sdTy] at hsd
  case case2 =>
    intro ctx name props pairs hne ih
    intro w ctx₂ hok herr hjson hsd
    rw [typeWrapperConstruct.eq_def, if_neg hne] at hok
    obtain ⟨hclean, fvals, bpairs, hx, hser, hjs, hrec⟩ :=
      ih w ctx₂ hok herr (by rwa [jsonVal] at hjson) (by rwa [sdTy] at hsd)
    refine ⟨by rw [hx]; simp, hclean, .dict bpairs, hser, by rw [jsonVal]; exact hjs,
      fun c => ?_⟩
    rw [typeWrapperConstruct.eq_def,
      if_neg (by simp [typeMatchesExactly] : ¬typeMatchesExactly
        (Ty.cls name props) (Val.dict bpairs) = true)]
    exact hrec c
  case case3 =>
    intro ctx name props v hnd hne
    intro w ctx₂ hok herr hjson hsd
    rw [typeWrapperConstruct.eq_def, if_neg hne] at hok
    cases v <;> first
      | exact (hnd _ rfl).elim
      | exact absurd herr (error_not_clean hok)
  case case4 =>
    intro value ctx f hne ih
    intro w ctx₂ hok herr hjson hsd
    simp [sdTy] at hsd
  case case5 =>
    intro value ctx p hne
    intro w ctx₂ hok herr hjson hsd
    rw [typeWrapperConstruct.eq_def, if_neg hne] at hok
    exact absurd herr (error_not_clean hok)
  case case6 =>
    intro value ctx t ih
    intro w ctx₂ hok herr hjson hsd
    rw [fieldConstruct.eq_def] at hok
    exact ih w ctx₂ hok herr hjson (by rwa [sdField] at hsd)
  case case7 =>
    intro ctx t dflt
    intro w ctx₂ hok herr hjson hsd
    simp [sdField] at hsd
  case case8 =>
    intro ctx t dflt v hne ih
    intro w ctx₂ hok herr hjson hsd
    simp [sdField] at hsd
  case case9 =>
    intro value ctx types fixValues ih
    intro w ctx₂ hok herr hjson hsd
    simp [sdField] at hsd
  case case10 =>
    intro value ctx t ih
    intro w ctx₂ hok herr hjson hsd
    rw [fieldConstruct.eq_def] at hok
    exact ih w ctx₂ hok herr hjson (by rwa [sdField] at hsd)
  case case11 =>
    intro value ctx t h
    intro w ctx₂ hok herr hjson hsd
    simp [sdField] at hsd
  case case12 =>
    intro value ctx t h
    intro w ctx₂ hok herr hjson hsd
    simp [sdField] at hsd
  case case13 =>
    intro t ctx
    intro w ctx₂ hok herr hjson hsd
    rw [repeatConstruct.eq_def] at hok
    simp at hok
    exact Or.inl hok.1.symm
  case case14 =>
    intro t ctx s
    intro w ctx₂ hok herr hjson hsd
    rw [repeatConstruct.eq_def] at hok
    exact absurd herr (error_not_clean hok)
  case case15 =>
    intro t ctx xs cs ctx'' hre ih
    intro w ctx₂ hok herr hjson hsd
    rw [repeatConstruct.eq_def] at hok
    simp only [hre] at hok
    simp at hok
    obtain ⟨hw, hcx⟩ := hok
    subst hcx
    obtain ⟨hclean, bs, hser, hjs, hrec⟩ :=
      ih cs ctx'' hre herr (by rwa [jsonVal] at hjson) hsd
    exact Or.inr ⟨cs, bs, hw.symm, hclean, hser, hjs, hrec⟩
  case case16 =>
    intro t ctx xs e hre ih
    intro w ctx₂ hok herr hjson hsd
    rw [repeatConstruct.eq_def] at hok
    simp only [hre] at hok
    cases hok
  case case17 =>
    intro t ctx pairs cs ctx'' hre ih
    intro w ctx₂ hok herr hjson hsd
    rw [repeatConstruct.eq_def] at hok
    simp only [hre] at hok
    simp at hok
    obtain ⟨hw, hcx⟩ := hok
    subst hcx
    obtain ⟨hclean, bs, hser, hjs, hrec⟩ :=
      ih cs ctx'' hre herr (jsonValList_keys pairs) hsd
    exact Or.inr ⟨cs, bs, hw.symm, hclean, hser, hjs, hrec⟩
  case case18 =>
    intro t ctx pairs e hre ih
    intro w ctx₂ hok herr hjson hsd
    rw [repeatConstruct.eq_def] at hok
    simp only [hre] at hok
    cases hok
  case case19 =>
    intro t ctx xs cs ctx'' hre ih
    intro w ctx₂ hok herr hjson hsd
    simp [jsonVal] at hjson
  case case20 =>
    intro t ctx xs e hre ih
    intro w ctx₂ hok herr hjson hsd
    simp [jsonVal] at hjson
  case case21 =>
    intro t ctx v h1 h2 h3 h4 h5
    intro w ctx₂ hok herr hjson hsd
    rw [repeatConstruct.eq_def] at hok
    cases v <;> first
      | exact (h1 rfl).elim
      | exact (h2 _ rfl).elim
      | exact (h3 _ rfl).elim
      | exact (h4 _ rfl).elim
      | exact (h5 _ rfl).elim
      | exact absurd herr (error_not_clean hok)
  case case22 =>
    intro t i ctx
    intro ws ctx₂ hok herr hjson hsd
    rw [repeatElems.eq_def] at hok
    simp at hok
    obtain ⟨hw, hcx⟩ := hok
    subst hcx
    subst hw
    refine ⟨by rw [cleanValList], [], by rw [listToBuiltin], by rw [jsonValList],
      fun c i' => by rw [repeatElems.eq_def]⟩
  case case23 =>
    intro t i ctx el rest e c htw ih
    intro ws ctx₂ hok herr hjson hsd
    rw [repeatElems.eq_def] at hok
    simp only [htw] at hok
    cases hok
  case case24 =>
    intro t i ctx el rest cel ctx2 htw cs ctx'' hre ihtw ihrest
    intro ws ctx₂ hok herr hjson hsd
    rw [repeatElems.eq_def] at hok
    simp only [htw, hre] at hok
    simp at hok
    obtain ⟨hw, hcx⟩ := hok
    subst hcx
    have hg1 : ∃ δ, ctx2.errors = ctx.errors ++ δ := by
      have := (ctxEvolves_all.1 t el (stepPush ctx "List" ("at element " ++ toString i))).2.2
      rw [htw] at this
      simpa [resCtx, stepPush] using this
    have hg2 : ∃ δ, ctx''.errors = ctx2.errors ++ δ := by
      have := (ctxEvolves_all.2.2.2.1 t rest (i + 1) (stepPop ctx2)).2.2
      rw [hre] at this
      simpa [resCtx, stepPop] using this
    obtain ⟨h1, h2⟩ := clean_split hg1 hg2 herr
    rw [jsonValList] at hjson
    simp only [Bool.and_eq_true] at hjson
    obtain ⟨hwne, hclean1, b, hserb, hjb, hrecb⟩ :=
      ihtw cel ctx2 htw (by simpa [stepPush] using h1) hjson.1 hsd
    obtain ⟨hcleanr, bs, hserr, hjbs, hrecr⟩ :=
      ihrest cs ctx'' hre (by simpa [stepPop] using h2) hjson.2 hsd
    rw [← hw]
    refine ⟨?_, b :: bs, ?_, ?_, fun c' i' => ?_⟩
    · rw [cleanValList]
      simp [hclean1, hcleanr]
    · rw [listToBuiltin]
      simp only [hserb, hserr]
    · rw [jsonValList]
      simp [hjb, hjbs]
    · rw [repeatElems.eq_def]
      simp only [hrecb (stepPush c' "List" ("at element " ++ toString i')),
        stepPop_stepPush, hrecr c' (i' + 1)]
  case case25 =>
    intro t i ctx el rest cel ctx2 htw e hre ihtw ihrest
    intro ws ctx₂ hok herr hjson hsd
    rw [repeatElems.eq_def] at hok
    simp only [htw, hre] at hok
    cases hok
  case case26 => intros; trivial
  case case27 => intros; trivial
  case case28 => intros; trivial
  case case29 => intros; trivial
  case case30 => intros; trivial
  case case31 => intros; trivial
  case case32 => intros; trivial
  case case33 => intros; trivial
  case case34 => intros; trivial
  case case35 => intros; trivial
  case case36 => intros; trivial
  case case37 =>
    intro clsName props kwargs ctx e c hif ih
    intro x ctx₂ hok herr hjson hsd
    rw [configObjectInit.eq_def] at hok
    simp only [hif] at hok
    cases hok
  case case38 =>
    intro clsName props kwargs ctx fieldVals c hif kv hfind ih
    intro x ctx₂ hok herr hjson hsd
    rw [configObjectInit.eq_def] at hok
    simp only [hif, hfind] at hok
    cases hok
  case case39 =>
    intro clsName props kwargs ctx fieldVals c hif hfind ih
    intro x ctx₂ hok herr hjson hsd
    rw [configObjectInit.eq_def] at hok
    simp only [hif, hfind] at hok
    simp at hok
    obtain ⟨hx, hcx⟩ := hok
    subst hcx
    have herr' : c.errors = (stepPush ctx "Object" clsName).errors := by
      simpa [stepPop, stepPush] using herr
    obtain ⟨hnames, hcleanp, bpairs, hser, hjright, hbnames, hrec⟩ :=
      ih fieldVals c hif herr' hjson hsd
    rw [← hx]
    refine ⟨by rw [cleanVal]; exact hcleanp, fieldVals, bpairs, rfl, ?_, hjright,
      fun c' => ?_⟩
    · rw [baseToBuiltin, objToBuiltin]
      simp only [hser]
    · rw [configObjectInit.eq_def]
      simp only [hrec (stepPush c' "Object" clsName), find_foreign_none hbnames,
        stepPop_stepPush]
  case case40 =>
    intro kwargs ctx
    intro fvals ctx₂ hok herr hjson hsd
    rw [initFields.eq_def] at hok
    simp at hok
    obtain ⟨hfv, hcx⟩ := hok
    subst hcx
    subst hfv
    refine ⟨by simp, by rw [cleanValPairs], [], by rw [propsToBuiltin],
      by rw [jsonValPairs], by simp, fun c => by rw [initFields.eq_def]⟩
  case case41 =>
    intro kwargs ctx name fieldDef rest e c hsp ih
    intro fvals ctx₂ hok herr hjson hsd
    rw [initFields.eq_def] at hok
    simp only [hsp] at hok
    cases hok
  case case42 =>
    intro kwargs ctx name fieldDef rest resolved ctx2' hsp vals ctx2 hrest ihsp ihrest
    intro fvals ctx₂ hok herr hjson hsd
    rw [initFields.eq_def] at hok
    simp only [hsp, hrest] at hok
    simp at hok
    obtain ⟨hfv, hcx⟩ := hok
    subst hcx
    rw [sdProps] at hsd
    simp only [Bool.and_eq_true] at hsd
    have hg1 : ∃ δ, ctx2'.errors = ctx.errors ++ δ := by
      have := (ctxEvolves_all.2.2.2.2.2.2.2.2 fieldDef
        ((lookupVal kwargs name).getD Val.vnone)
        (stepPush ctx (fieldTracebackType fieldDef) name)).2.2
      rw [hsp] at this
      simpa [resCtx, stepPush] using this
    have hg2 : ∃ δ, ctx2.errors = ctx2'.errors ++ δ := by
      have := (ctxEvolves_all.2.2.2.2.2.2.2.1 rest kwargs (stepPop ctx2')).2.2
      rw [hrest] at this
      simpa [resCtx, stepPop] using this
    obtain ⟨h1, h2⟩ := clean_split hg1 hg2 herr
    obtain ⟨hcleanw, b, hserb, hjb, hrecb⟩ :=
      ihsp resolved ctx2' hsp (by simpa [stepPush] using h1)
        (jsonVal_lookup hjson) hsd.1.1
    obtain ⟨hnames, hcleanp, bpairs, hserr, hjbp, hbnames, hrecr⟩ :=
      ihrest vals ctx2 hrest (by simpa [stepPop] using h2) hjson hsd.2
    have hnin : name ∉ rest.map Prod.fst := by
      have := hsd.1.2
      simp only [Bool.not_eq_true'] at this
      simpa using this
    have hninv : name ∉ vals.map Prod.fst := by rw [hnames]; exact hnin
    rw [← hfv]
    refine ⟨by simp [hnames], ?_, (name, b) :: bpairs, ?_, ?_, by simp [hbnames],
      fun c' => ?_⟩
    · rw [cleanValPairs]
      simp [hcleanw, hcleanp, hninv]
    · rw [propsToBuiltin]
      simp only [lookupVal_head, propValToBuiltin, hserb,
        propsToBuiltin_skip resolved vals hnin, hserr]
    · rw [jsonValPairs]
      simp [hjb, hjbp]
    · rw [initFields.eq_def]
      simp only [lookupVal_head, Option.getD_some,
        hrecb (stepPush c' (fieldTracebackType fieldDef) name), stepPop_stepPush,
        initFields_skip b bpairs c' hnin, hrecr c']
  case case43 =>
    intro kwargs ctx name fieldDef rest resolved ctx2' hsp e hrest ihsp ihrest
    intro fvals ctx₂ hok herr hjson hsd
    rw [initFields.eq_def] at hok
    simp only [hsp, hrest] at hok
    cases hok
  case case44 =>
    intro fieldDef value ctx c hfc ih
    intro w ctx₂ hok herr hjson hsd
    rw [setPropertyWithCtx.eq_def] at hok
    simp only [hfc] at hok
    simp at hok
    obtain ⟨hw, hcx⟩ := hok
    subst hcx
    have hcon := ih Val.vnone c hfc herr hjson hsd
    cases fieldDef with
    | REQUIRED t => exact absurd rfl hcon.1
    | REPEAT t =>
      rw [← hw, fieldDefault]
      refine ⟨by rw [cleanVal, cleanValList], .list [], ?_, by rw [jsonVal, jsonValList],
        fun c' => ?_⟩
      · simp [fieldToBuiltin, listToBuiltin]
      · refine setProperty_construct_ok ?_ (by simp)
        simp only [fieldConstruct, repeatConstruct, repeatElems]
    | OPTIONAL t d => simp [sdField] at hsd
    | EITHER a b => simp [sdField] at hsd
    | SUBCLASS_OF t => simp [sdField] at hsd
  case case45 =>
    intro fieldDef value ctx v c hne hfc ih
    intro w ctx₂ hok herr hjson hsd
    have hvne : v ≠ Val.vnone := fun hc => hne hc
    obtain ⟨hw2, hcx2⟩ := setProperty_ok_inv hfc hvne hok
    subst hw2
    subst hcx2
    have hcon := ih w ctx₂ hfc herr hjson hsd
    cases fieldDef with
    | REQUIRED t =>
      obtain ⟨hwne, hclean, b, hser, hjb, hrec⟩ := hcon
      refine ⟨hclean, b, by simp only [fieldToBuiltin]; exact hser, hjb, fun c' => ?_⟩
      refine setProperty_construct_ok ?_ hwne
      simp only [fieldConstruct]
      exact hrec c'
    | REPEAT t =>
      rcases hcon with hnone | ⟨ws, bs, hv, hcleanws, hser, hjbs, hrecel⟩
      · exact (hvne hnone).elim
      · subst hv
        refine ⟨by rw [cleanVal]; exact hcleanws, .list bs, ?_,
          by rw [jsonVal]; exact hjbs, fun c' => ?_⟩
        · simp only [fieldToBuiltin, hser]
        · refine setProperty_construct_ok ?_ (by simp)
          simp only [fieldConstruct, repeatConstruct, hrecel c' 0]
    | OPTIONAL t d => simp [sdField] at hsd
    | EITHER a b => simp [sdField] at hsd
    | SUBCLASS_OF t => simp [sdField] at hsd
  case case46 =>
    intro fieldDef value ctx e hfc ih
    intro w ctx₂ hok herr hjson hsd
    rw [setPropertyWithCtx.eq_def] at hok
    simp only [hfc] at hok
    cases hok

/-- **C2**: for a schema whose field types are all self-describing
(required `int`/`str`, nested schema objects, or `REPEAT` lists
thereof), an object `x` validly constructed (no recorded errors) from a
plain-data mapping serializes back to plain data via `_to_builtin`, and
constructing from that serialization succeeds with no errors and yields
an object equal to `x` — `construct(serialize(x)) == x` under the
engine's own `__eq__`. -/
theorem c2_construct_serialize_roundtrip (clsName : String)
    (props : List (String × FieldDef)) (kwargs : List (String × Val))
    (x : Val) (ctx' : InitContext)
    (hsd : sdProps props = true)
    (hjson : jsonValPairs kwargs = true)
    (hinit : configObjectInit clsName props kwargs {} = .ok (x, ctx'))
    (hnoerr : ctx'.errors = []) :
    ∃ bpairs x2 ctx2,
      baseToBuiltin x = .ok (.dict bpairs) ∧
      configObjectInit clsName props bpairs {} = .ok (x2, ctx2) ∧
      ctx2.errors = [] ∧ x2 = x ∧ pyEq x2 x = true := by
  obtain ⟨hclean, fvals, bpairs, hx, hser, hjb, hrec⟩ :=
    roundTrip_all.2.2.2.2.2.2.1 clsName props kwargs {} x ctx' hinit
      (by simpa using hnoerr) hjson hsd
  exact ⟨bpairs, x, {}, hser, hrec {}, rfl, rfl, pyEq_refl x hclean⟩

/-- Witness for C2 at a schema with one integer field and one repeated
string field. -/
theorem c2_construct_serialize_roundtrip_witness :
    ∃ bpairs x2 ctx2,
      baseToBuiltin (Val.obj "Pt"
        [("x", .REQUIRED (.prim .pInt)), ("tags", .REPEAT (.prim .pStr))]
        [("x", Val.int 1), ("tags", Val.list [Val.str "a"])]) = .ok (.dict bpairs) ∧
      configObjectInit "Pt"
        [("x", .REQUIRED (.prim .pInt)), ("tags", .REPEAT (.prim .pStr))]
        bpairs {} = .ok (x2, ctx2) ∧
      ctx2.errors = [] ∧
      x2 = Val.obj "Pt"
        [("x", .REQUIRED (.prim .pInt)), ("tags", .REPEAT (.prim .pStr))]
        [("x", Val.int 1), ("tags", Val.list [Val.str "a"])] ∧
      pyEq x2 (Val.obj "Pt"
        [("x", .REQUIRED (.prim .pInt)), ("tags", .REPEAT (.prim .pStr))]
        [("x", Val.int 1), ("tags", Val.list [Val.str "a"])]) = true :=
  c2_construct_serialize_roundtrip "Pt"
    [("x", .REQUIRED (.prim .pInt)), ("tags", .REPEAT (.prim .pStr))]
    [("x", Val.int 1), ("tags", Val.list [Val.str "a"])]
    (Val.obj "Pt"
      [("x", .REQUIRED (.prim .pInt)), ("tags", .REPEAT (.prim .pStr))]
      [("x", Val.int 1), ("tags", Val.list [Val.str "a"])]) {}
    (by simp [sdProps, sdField, sdTy])
    (by simp [jsonValPairs, jsonVal, jsonValList])
    (by simp [configObjectInit, initFields, setPropertyWithCtx, fieldConstruct,
      typeWrapperConstruct, typeMatchesExactly, repeatConstruct, repeatElems,
      lookupVal, stepPush, stepPop, fieldTracebackType, validKeysOf, List.find?])
    rfl
